import Mathlib

/-!
Verification development for the DocuGraph document-to-graph pipeline.

The JavaScript sources are embedded shallowly: program text is a list of
characters, every pure string transformation is a computable Lean function
translated clause by clause from the source, and the effectful services
(Neo4j ingestion, the pipeline orchestrator, the retry wrapper) are
modelled as pure functions over explicit oracles for their external calls,
returning the ordered list of persistence events they would perform.

Source files referenced throughout:
- src/src/utils/chunking.js            (chunkText; formatStructuredCypher and helpers)
- src/src/utils/retry.js               (retryWithBackoff, isRetryableError)
- src/src/services/neo4jIngest/index.js (splitCypherStatements, isSchemaModification,
                                         separateSchemaAndWriteStatements, ingestChunkCypher)
- src/unnamed/part_007                 (extractSchema retry invocation)
- src/unnamed/part_008                 (fixCypherSyntax, runPipeline)
-/

set_option maxRecDepth 100000

namespace DocuGraph

/-- Program text, modelled as its character list (the JS strings involved are ASCII). -/
abbrev Str := List Char

/-- Characters matched by the JavaScript regex class \w, i.e. [A-Za-z0-9_]. -/
def isWordChar (c : Char) : Bool := c.isAlpha || c.isDigit || c == '_'

/-- Characters matched by the JavaScript regex class \s on the ASCII inputs handled here
(space, tab, newline, carriage return, vertical tab, form feed). -/
def isSpaceChar (c : Char) : Bool :=
  c == ' ' || c == '\t' || c == '\n' || c == '\r' || c == Char.ofNat 11 || c == Char.ofNat 12

/-- The apostrophe character. -/
def quoteChar : Char := Char.ofNat 39

/-- The backtick character. -/
def backquoteChar : Char := Char.ofNat 96

/-- ASCII lower-casing, as String.prototype.toLowerCase acts on the ASCII inputs here. -/
def lowerStr (s : Str) : Str := s.map Char.toLower

/-- ASCII upper-casing, as String.prototype.toUpperCase acts on the ASCII inputs here. -/
def upperStr (s : Str) : Str := s.map Char.toUpper

/-- JS String.prototype.trim: strip leading and trailing whitespace. -/
def trimStr (s : Str) : Str :=
  ((s.dropWhile isSpaceChar).reverse.dropWhile isSpaceChar).reverse

/-- JS String.prototype.startsWith. -/
def startsWithStr (s pre : Str) : Bool := pre.isPrefixOf s

/-- Case-insensitive prefix test (used for JS regexes carrying the i flag). -/
def startsWithCI (s pre : Str) : Bool :=
  decide (pre.length ≤ s.length) && lowerStr (s.take pre.length) == lowerStr pre

/-- JS String.prototype.includes: substring test. -/
def strIncludes : Str → Str → Bool
  | [], pat => pat.isPrefixOf ([] : Str)
  | c :: rest, pat => pat.isPrefixOf (c :: rest) || strIncludes rest pat

/-- Work loop of the global literal replace. Every step consumes at least one
character (a nonempty pattern on a match, one character otherwise), so fuel
equal to the string length makes the fuel bound unreachable. -/
def replaceAllAux (pat rep : Str) : Nat → Str → Str
  | 0, s => s
  | _ + 1, [] => []
  | fuel + 1, c :: rest =>
    if !pat.isEmpty && pat.isPrefixOf (c :: rest) then
      rep ++ replaceAllAux pat rep fuel ((c :: rest).drop pat.length)
    else
      c :: replaceAllAux pat rep fuel rest

/-- JS String.prototype.replace with a global literal pattern: replace every
left-to-right non-overlapping occurrence of `pat` by `rep`. -/
def replaceAllStr (pat rep s : Str) : Str := replaceAllAux pat rep s.length s

/-- Work loop of the case-insensitive global literal replace; see
`replaceAllAux`. -/
def replaceAllCIAux (pat rep : Str) : Nat → Str → Str
  | 0, s => s
  | _ + 1, [] => []
  | fuel + 1, c :: rest =>
    if !pat.isEmpty && startsWithCI (c :: rest) pat then
      rep ++ replaceAllCIAux pat rep fuel ((c :: rest).drop pat.length)
    else
      c :: replaceAllCIAux pat rep fuel rest

/-- Case-insensitive variant of `replaceAllStr` (for JS regexes with the gi flags). -/
def replaceAllCI (pat rep s : Str) : Str := replaceAllCIAux pat rep s.length s

/-- Run a matcher at every position left to right, emitting either the matcher's
replacement (and resuming after the matched text) or the unmatched character.
This is the evaluation scheme of a global JS regex replace; the fuel equals the
string length, which suffices because every matcher consumes at least one
character. -/
def scanReplaceAux (m : Str → Option (Str × Str)) : Nat → Str → Str
  | 0, s => s
  | _ + 1, [] => []
  | fuel + 1, c :: rest =>
    match m (c :: rest) with
    | some (out, rest2) => out ++ scanReplaceAux m fuel rest2
    | none => c :: scanReplaceAux m fuel rest

/-- Global regex replace driver; see `scanReplaceAux`. -/
def scanReplace (m : Str → Option (Str × Str)) (s : Str) : Str := scanReplaceAux m s.length s

/-- Collect the captures of every left-to-right non-overlapping match, as a JS
`while ((m = re.exec(s)) !== null)` loop does for a global regex. -/
def scanMatchesAux {κ : Type} (m : Str → Option (κ × Str)) : Nat → Str → List κ
  | 0, _ => []
  | _ + 1, [] => []
  | fuel + 1, c :: rest =>
    match m (c :: rest) with
    | some (k, rest2) => k :: scanMatchesAux m fuel rest2
    | none => scanMatchesAux m fuel rest

/-- Global regex match-collection driver; see `scanMatchesAux`. -/
def scanMatches {κ : Type} (m : Str → Option (κ × Str)) (s : Str) : List κ :=
  scanMatchesAux m s.length s

/-- First match of a (non-global) JS regex: try the matcher at each start
position from the left, including the empty final position. -/
def scanFirst {κ : Type} (m : Str → Option κ) : Str → Option κ
  | [] => m []
  | c :: rest =>
    match m (c :: rest) with
    | some k => some k
    | none => scanFirst m rest

/-- JS Array.prototype.join. -/
def joinSep (sep : Str) : List Str → Str
  | [] => []
  | [x] => x
  | x :: y :: rest => x ++ sep ++ joinSep sep (y :: rest)

/-- JS String.prototype.split(/\s+/) helper: walk the text accumulating the
current piece (reversed) and cut at each maximal whitespace run. Each step
consumes at least one character, so fuel equal to the length plus one makes
the fuel bound unreachable. -/
def jsSplitWSAux : Nat → Str → Str → List Str
  | 0, _, current => [current.reverse]
  | _ + 1, [], current => [current.reverse]
  | fuel + 1, c :: rest, current =>
    if isSpaceChar c then
      current.reverse :: jsSplitWSAux fuel (rest.dropWhile isSpaceChar) []
    else
      jsSplitWSAux fuel rest (c :: current)

/-- JS text.split(/\s+/): splits on maximal whitespace runs; a leading or a
trailing run contributes an empty piece, exactly as in JS. -/
def jsSplitWS (s : Str) : List Str := jsSplitWSAux (s.length + 1) s []

/-- JS index clamping used by Array.prototype.slice: a negative index counts
from the end of the array, and all indices are clamped into [0, len]. -/
def jsSliceClamp (len : Nat) (i : Int) : Nat :=
  if i < 0 then ((len : Int) + i).toNat else min i.toNat len

/-- JS Array.prototype.slice(s, e). -/
def jsSlice {α : Type} (l : List α) (s e : Int) : List α :=
  (l.take (jsSliceClamp l.length e)).drop (jsSliceClamp l.length s)

/-! ## TextChunker — src/src/utils/chunking.js, chunkText (lines 15-62) -/

/-- One chunk record produced by chunkText. -/
structure JSChunk where
  text : Str
  startIndex : Nat
  endIndex : Nat
  wordCount : Nat
  chunkIndex : Nat
deriving DecidableEq

/-- The while loop of chunkText (src/src/utils/chunking.js lines 36-59), with
explicit fuel. The source loop advances `startIdx += chunkSizeWords -
overlapWords` with no clamping, so the loop need not terminate; `none` means
the fuel was exhausted before the loop exited. Indices are JS numbers,
modelled as Int. -/
def chunkGo (words : List Str) (chunkSizeWords overlapWords : Int) :
    Nat → Int → Nat → List JSChunk → Option (List JSChunk)
  | 0, _, _, _ => none
  | fuel + 1, startIdx, chunkIndex, chunks =>
    if startIdx < (words.length : Int) then
      let endIdx : Int := min (startIdx + chunkSizeWords) (words.length : Int)
      let chunkWords := jsSlice words startIdx endIdx
      let ctext := joinSep (" ".data) chunkWords
      let textBeforeChunk := joinSep (" ".data) (jsSlice words 0 startIdx)
      let textStart := textBeforeChunk.length + (if textBeforeChunk.length > 0 then 1 else 0)
      let textEnd := textStart + ctext.length
      let chunks2 := chunks ++ [⟨ctext, textStart, textEnd, chunkWords.length, chunkIndex⟩]
      let startIdx2 := startIdx + chunkSizeWords - overlapWords
      if startIdx2 ≥ (words.length : Int) then some chunks2
      else chunkGo words chunkSizeWords overlapWords fuel startIdx2 (chunkIndex + 1) chunks2
    else some chunks

/-- chunkText (src/src/utils/chunking.js lines 15-62), with explicit fuel for
its while loop; `none` means the loop did not exit within `fuel` iterations. -/
def chunkTextFuel (fuel : Nat) (text : Str) (chunkSizeWords overlapWords : Int) :
    Option (List JSChunk) :=
  if text.isEmpty || (trimStr text).isEmpty then some []
  else
    let words := jsSplitWS text
    if (words.length : Int) ≤ chunkSizeWords then
      some [⟨text, 0, text.length, words.length, 0⟩]
    else chunkGo words chunkSizeWords overlapWords fuel 0 0 []

/-! ## RetryExecutor — src/src/utils/retry.js, retryWithBackoff (lines 19-85) -/

/-- The options object accepted by retryWithBackoff. JS callers may put any
keys on this object; the fields below are the keys that appear either in the
destructuring at retry.js lines 20-27 or at some call site. `maxAttempts`
(the spec's name for the budget) and `isRetryable` (the key passed by
extractSchema, part_007 line 269) are carried by call sites but never read
by retryWithBackoff. -/
structure RetryOptions (ε : Type) where
  maxRetries : Option Nat := none
  initialDelay : Option Nat := none
  maxDelay : Option Nat := none
  backoffMultiplier : Option Nat := none
  shouldRetry : Option (ε → Bool) := none
  context : Option Str := none
  maxAttempts : Option Nat := none
  isRetryable : Option (ε → Bool) := none

/-- Result of a retryWithBackoff run: the value or final error, the number of
times the operation was invoked, and the delays slept between attempts. -/
structure RetryOutcome (ε α : Type) where
  result : Except ε α
  calls : Nat
  delays : List Nat

/-- The `for (attempt = 0; attempt <= maxRetries; attempt++)` loop of
retryWithBackoff (retry.js lines 32-82). `remaining` is `maxRetries - attempt`;
the operation is modelled as a function of the attempt index so that each
invocation may fail differently. -/
def retryLoop {ε α : Type} (f : Nat → Except ε α) (sr : ε → Bool)
    (backoffMultiplier maxDelay : Nat) :
    Nat → Nat → Nat → List Nat → RetryOutcome ε α
  | remaining, attempt, delay, ds =>
    match f attempt with
    | .ok a => ⟨.ok a, attempt + 1, ds⟩
    | .error e =>
      if !sr e then ⟨.error e, attempt + 1, ds⟩
      else match remaining with
        | 0 => ⟨.error e, attempt + 1, ds⟩
        | remaining' + 1 =>
          retryLoop f sr backoffMultiplier maxDelay remaining' (attempt + 1)
            (min (delay * backoffMultiplier) maxDelay) (ds ++ [delay])

/-- retryWithBackoff (retry.js lines 19-85). The destructuring defaults are
those of lines 20-27; note that the retryability predicate is read from the
key `shouldRetry` (default: retry everything) and that the keys `maxAttempts`
and `isRetryable` are never consulted. -/
def retryWithBackoff {ε α : Type} (f : Nat → Except ε α) (options : RetryOptions ε) :
    RetryOutcome ε α :=
  let maxRetries := options.maxRetries.getD 3
  let initialDelay := options.initialDelay.getD 1000
  let maxDelay := options.maxDelay.getD 30000
  let backoffMultiplier := options.backoffMultiplier.getD 2
  let sr := options.shouldRetry.getD (fun _ => true)
  retryLoop f sr backoffMultiplier maxDelay maxRetries 0 initialDelay []

/-- The options object that extractSchema (src/unnamed/part_007 lines 265-270)
passes to retryWithBackoff: the classifier is supplied under the key
`isRetryable`, not under `shouldRetry`. -/
def extractSchemaRetryOptions {ε : Type} (classifier : ε → Bool) : RetryOptions ε :=
  { maxRetries := some 3
    initialDelay := some 1000
    maxDelay := some 10000
    isRetryable := some classifier }

/-! ## Statement splitting and partitioning — src/src/services/neo4jIngest/index.js -/

/-- The character walk of splitCypherStatements (neo4jIngest/index.js lines
24-58): split on semicolons, except inside a single-, double- or
backtick-quoted literal; an opening quote immediately preceded by a backslash
does not toggle the string state. -/
def splitStatementsGo : Str → Option Char → Option Char → Str → List Str → List Str
  | [], _, _, current, acc =>
    let t := trimStr current
    if t.length > 0 then acc ++ [t] else acc
  | c :: rest, stringChar, prevChar, current, acc =>
    let isQuote := c == '"' || c == quoteChar || c == backquoteChar
    let escaped := prevChar == some '\\'
    let stringChar2 :=
      if isQuote && !escaped then
        match stringChar with
        | none => some c
        | some q => if c == q then none else some q
      else stringChar
    if c == ';' && stringChar2 == none then
      let t := trimStr current
      splitStatementsGo rest stringChar2 (some c) []
        (if t.length > 0 then acc ++ [t] else acc)
    else
      splitStatementsGo rest stringChar2 (some c) (current ++ [c]) acc

/-- splitCypherStatements (neo4jIngest/index.js lines 18-61). -/
def splitCypherStatements (cypher : Str) : List Str :=
  if cypher.isEmpty || (trimStr cypher).isEmpty then []
  else (splitStatementsGo cypher none none [] []).filter (fun s => s.length > 0)

/-- isSchemaModification (neo4jIngest/index.js lines 67-73). -/
def isSchemaModification (statement : Str) : Bool :=
  let upperStatement := upperStr (trimStr statement)
  startsWithStr upperStatement ("CREATE CONSTRAINT".data) ||
  startsWithStr upperStatement ("CREATE INDEX".data) ||
  startsWithStr upperStatement ("DROP CONSTRAINT".data) ||
  startsWithStr upperStatement ("DROP INDEX".data)

/-- The skip condition of separateSchemaAndWriteStatements (neo4jIngest/index.js
lines 86-89): empty statements and statements whose trimmed text begins with a
line comment or a block comment are dropped without being executed. -/
def skippedStmt (statement : Str) : Bool :=
  let trimmed := trimStr statement
  trimmed.isEmpty || startsWithStr trimmed ("--".data) || startsWithStr trimmed ("/*".data)

/-- separateSchemaAndWriteStatements (neo4jIngest/index.js lines 80-99). -/
def separateSchemaAndWriteStatements (statements : List Str) : List Str × List Str :=
  statements.foldl
    (fun acc statement =>
      if skippedStmt statement then acc
      else if isSchemaModification statement then (acc.1 ++ [statement], acc.2)
      else (acc.1, acc.2 ++ [statement]))
    ([], [])

/-! ## StatementCorrector, parsing layer — src/src/utils/chunking.js (formatCypher.js part) -/

/-- The left-brace character, written by code point to keep braces out of string literals. -/
def lbrace : Char := Char.ofNat 123

/-- The right-brace character. -/
def rbrace : Char := Char.ofNat 125

/-- Consume one expected character. -/
def expectChar (c : Char) : Str → Option Str
  | x :: rest => if x == c then some rest else none
  | [] => none

/-- Consume an expected literal. -/
def expectLit (lit : Str) (s : Str) : Option Str :=
  if startsWithStr s lit then some (s.drop lit.length) else none

/-- Consume a maximal nonempty run of characters satisfying `p` and return it.
Every use below is followed by a delimiter excluded from `p`, so greedy
maximal munch coincides with JS backtracking semantics. -/
def classRun1 (p : Char → Bool) (s : Str) : Option (Str × Str) :=
  let w := s.takeWhile p
  if w.isEmpty then none else some (w, s.drop w.length)

/-- Skip \s*. -/
def skipWS (s : Str) : Str := s.dropWhile isSpaceChar

/-- First element of the list on which `f` succeeds. -/
def firstSome {α β : Type} (f : α → Option β) : List α → Option β
  | [] => none
  | a :: rest =>
    match f a with
    | some b => some b
    | none => firstSome f rest

/-- Match the node regex of parseCypher (chunking.js line 282),
MERGE\s*\((\w+):(\w+)\s*\x7b([^\x7d]+)\x7d\), at the head of the input;
returns ((variable, label, props), rest-after-match). -/
def matchNodeAt (s : Str) : Option ((Str × Str × Str) × Str) := do
  let s ← expectLit ("MERGE".data) s
  let s ← expectChar '(' (skipWS s)
  let (v, s) ← classRun1 isWordChar s
  let s ← expectChar ':' s
  let (lab, s) ← classRun1 isWordChar s
  let s ← expectChar lbrace (skipWS s)
  let (props, s) ← classRun1 (fun c => !(c == rbrace)) s
  let s ← expectChar rbrace s
  let s ← expectChar ')' s
  return ((v, lab, props), s)

/-- Match the relationship regex of parseCypher (chunking.js line 313),
MERGE\s*\(([^)]+)\)-\[:([^\x5d]+)\](?:-&gt;|->)\(([^)]+)\), at the head of the
input; returns ((from, type, to), rest). The alternation tries the escaped
arrow first, as JS does. -/
def matchRelAt (s : Str) : Option ((Str × Str × Str) × Str) := do
  let s ← expectLit ("MERGE".data) s
  let s ← expectChar '(' (skipWS s)
  let (fromV, s) ← classRun1 (fun c => !(c == ')')) s
  let s ← expectChar ')' s
  let s ← expectLit ("-[:".data) s
  let (typ, s) ← classRun1 (fun c => !(c == ']')) s
  let s ← expectChar ']' s
  let s ←
    match expectLit ("-&gt;".data) s with
    | some s2 => some s2
    | none => expectLit ("->".data) s
  let s ← expectChar '(' s
  let (toV, s) ← classRun1 (fun c => !(c == ')')) s
  let s ← expectChar ')' s
  return ((fromV, typ, toV), s)

/-- Double or single quote, the class ["'] of the id-property regex. -/
def isQuoteChar (c : Char) : Bool := c == '"' || c == quoteChar

/-- The continuation :\s*["']([^"']+)["'] shared by the id-property regexes
(chunking.js lines 292 and 577); returns (captured value, rest). -/
def idContinuation (s : Str) : Option (Str × Str) := do
  let s ← expectChar ':' s
  let s := skipWS s
  match s with
  | q1 :: s1 =>
    if isQuoteChar q1 then do
      let (v, s2) ← classRun1 (fun c => !(isQuoteChar c)) s1
      match s2 with
      | q2 :: s3 => if isQuoteChar q2 then some (v, s3) else none
      | [] => none
    else none
  | [] => none

/-- Candidates for the alternation (\w+Id|id|_id|uuid) under the i flag, in JS
trial order, as (capture, rest) pairs. For \w+Id the greedy \w+ takes the
maximal word run; since the regex continues with a colon, which is not a word
character, the only viable backtracking split ends the group at the end of the
run, so that alternative succeeds exactly when the run has length at least 3
and ends in "id" case-insensitively, capturing the whole run. -/
def idAltCandidates (s : Str) : List (Str × Str) :=
  let run := s.takeWhile isWordChar
  let rest := s.drop run.length
  let alt1 :=
    if run.length ≥ 3 && startsWithCI (run.drop (run.length - 2)) ("id".data)
    then [(run, rest)] else []
  let alt2 := if startsWithCI s ("id".data) then [(s.take 2, s.drop 2)] else []
  let alt3 := if startsWithCI s ("_id".data) then [(s.take 3, s.drop 3)] else []
  let alt4 := if startsWithCI s ("uuid".data) then [(s.take 4, s.drop 4)] else []
  alt1 ++ alt2 ++ alt3 ++ alt4

/-- Match the id-property regex (\w+Id|id|_id|uuid):\s*["']([^"']+)["'] with
the i flag (chunking.js line 292) at the head of the input, trying the
alternatives in order and backtracking into the next one when the
continuation fails; returns (property capture, value capture). -/
def matchIdPropAt (s : Str) : Option (Str × Str) :=
  firstSome
    (fun gr => (idContinuation gr.2).map (fun vr => (gr.1, vr.1)))
    (idAltCandidates s)

/-- Match the inline-node regex \x7b(\w+Id|id|_id|uuid):\s*["']([^"']+)["']\x7d
with the i flag (chunking.js line 577) at the head of the input. -/
def matchInlineAt (s : Str) : Option (Str × Str) := do
  let s ← expectChar lbrace s
  firstSome
    (fun gr => do
      let (v, rest2) ← idContinuation gr.2
      let _ ← expectChar rbrace rest2
      return (gr.1, v))
    (idAltCandidates s)

/-- A node record built by parseCypher (chunking.js lines 298-305). -/
structure PNode where
  originalVar : Str
  label : Str
  props : Str
  idProp : Str
  idValue : Str
  key : Str
deriving DecidableEq

/-- A relationship record built by parseCypher (chunking.js lines 324-328);
the source field names are from, type and to. -/
structure PRel where
  fromVar : Str
  type : Str
  toVar : Str
deriving DecidableEq

/-- parseCypher (chunking.js lines 277-332). Node matches lacking an
id-property are dropped; relationship types have their escaped arrows
repaired (line 322). The nodeMap also returned by the source is unused by
formatStructuredCypher and is omitted. -/
def parseCypher (cypher : Str) : List PNode × List PRel :=
  let nodes := (scanMatches matchNodeAt cypher).foldl
    (fun acc m =>
      match scanFirst matchIdPropAt m.2.2 with
      | some (idProp, idValue) =>
        acc ++ [⟨m.1, m.2.1, m.2.2, idProp, idValue, m.2.1 ++ [':'] ++ idValue⟩]
      | none => acc) []
  let rels := (scanMatches matchRelAt cypher).map
    (fun m =>
      let typ := replaceAllStr ("&lt;".data) ("<".data)
        (replaceAllStr ("&gt;".data) (">".data)
          (replaceAllStr ("-&gt;".data) ("->".data) m.2.1))
      ⟨trimStr m.1, typ, trimStr m.2.2⟩)
  (nodes, rels)

/-! ## StatementCorrector, rendering layer -/

/-- A run of `n` spaces; JS ' '.repeat(Math.max(0, n - len)) is modelled by
truncated Nat subtraction at the call sites. -/
def spaces (n : Nat) : Str := List.replicate n ' '

/-- Lower-case the first character, as charAt(0).toLowerCase() + slice(1). -/
def lowerFirstChar : Str → Str
  | [] => []
  | c :: rest => c.toLower :: rest

/-- Upper-case the first character. -/
def upperFirstChar : Str → Str
  | [] => []
  | c :: rest => c.toUpper :: rest

/-- Strip one trailing literal "Id", as .replace(/Id$/, ''). -/
def stripTrailingId (s : Str) : Str :=
  if s.reverse.take 2 == ['d', 'I'] then s.take (s.length - 2) else s

/-- The special-case variable names of generateConstraints (chunking.js lines
128-156) and generateConstraintsFromNodes (lines 229-241); the default is the
first letter of the lower-cased label, and the Account and Party overrides of
the source coincide with that default. -/
def constraintVarName (label : Str) : Str :=
  if label == "Accounting".data then "acc2".data
  else if label == "Address".data then "addr".data
  else if label == "Reference".data then "ref".data
  else if label == "Investment".data then "inv".data
  else if label == "Position".data then "pos".data
  else if label == "Holding".data then "h".data
  else if label == "Risk".data then "r".data
  else if label == "Security".data then "s".data
  else if label == "Trade".data then "t".data
  else if label == "Account".data then "a".data
  else if label == "Party".data then "p".data
  else (lowerStr label).take 1

/-- The variable prefixes of generateSequentialVariables (chunking.js lines
355-380); unlike `constraintVarName`, Account and Party map to the full words
account and party. -/
def seqVarPrefix (label : Str) : Str :=
  if label == "Accounting".data then "acc2".data
  else if label == "Address".data then "addr".data
  else if label == "Reference".data then "ref".data
  else if label == "Investment".data then "inv".data
  else if label == "Position".data then "pos".data
  else if label == "Holding".data then "h".data
  else if label == "Risk".data then "r".data
  else if label == "Security".data then "s".data
  else if label == "Trade".data then "t".data
  else if label == "Account".data then "account".data
  else if label == "Party".data then "party".data
  else (lowerStr label).take 1

/-- Association-list update modelling JS Map.set. JS replaces the binding for
an existing key; since every map here is read only through get (never
iterated), a shadowing cons read through the first matching key is
observationally identical. -/
def amapSet {α : Type} (m : List (Str × α)) (k : Str) (v : α) : List (Str × α) := (k, v) :: m

/-- Association-list lookup modelling JS Map.get. -/
def amapGet {α : Type} (m : List (Str × α)) (k : Str) : Option α :=
  (m.find? (fun p => p.1 == k)).map (fun p => p.2)

/-- A constraint record assembled by the constraint generators (chunking.js
lines 162-167 and 246-250); constraintName is computed by generateConstraints
but never rendered. -/
structure ConstraintRec where
  label : Str
  property : Str
  varName : Str
  constraintName : Str
deriving DecidableEq

/-- Render one constraint line (chunking.js line 187 and, identically, 265). -/
def renderConstraintLine (c : ConstraintRec) : Str :=
  "CREATE CONSTRAINT IF NOT EXISTS FOR (".data ++ c.varName ++ [':'] ++ c.label ++ [')']
    ++ spaces (30 - c.varName.length)
    ++ "REQUIRE ".data ++ c.varName ++ ['.'] ++ c.property ++ " IS UNIQUE;\n".data

/-- The schema's nodes object, as an ordered association list of label to
property names; `none` models a missing or non-object nodes value (the guard
at chunking.js lines 91-98). The typeof-string guard on the property values is
a tautology in this model. -/
abbrev SchemaNodes := Option (List (Str × List Str))

/-- generateConstraints (chunking.js lines 87-191). The trueIdPattern test on
the lower-cased property with a lower-cased label reduces to the two
equalities written here, and the generic fallback pattern ^(id|_id|uuid)$ is
likewise tested on the lower-cased property. -/
def generateConstraints (schemaNodes : SchemaNodes) : Str :=
  match schemaNodes with
  | none =>
    ("/* --- 1) Add uniqueness constraints (run once) --- */\n\n".data)
      ++ "-- No constraints: Invalid schema structure\n\n".data
  | some entries =>
    let constraints := entries.foldl
      (fun acc entry =>
        if entry.2.isEmpty then acc
        else
          let labelLower := lowerStr entry.1
          let trueIdProps := entry.2.filter (fun p =>
            lowerStr p == labelLower ++ ("id".data) || lowerStr p == labelLower ++ ("_id".data))
          let idProps :=
            if !trueIdProps.isEmpty then trueIdProps
            else entry.2.filter (fun p =>
              lowerStr p == "id".data || lowerStr p == "_id".data || lowerStr p == "uuid".data)
          acc ++ idProps.map (fun idProp =>
            ConstraintRec.mk entry.1 (lowerFirstChar idProp) (constraintVarName entry.1)
              (lowerStr entry.1 ++ "_".data ++ idProp ++ "_unique".data)))
      []
    let header := "/* --- 1) Add uniqueness constraints (run once) --- */\n\n".data
    if constraints.isEmpty then
      header ++ "-- No constraints generated from schema.\n".data
        ++ "-- Constraints will be inferred from generated Cypher nodes.\n\n".data
    else
      header ++ (constraints.map renderConstraintLine).flatten

/-- Labels in order of first occurrence, the iteration order of the JS Map
built at chunking.js lines 203-209. -/
def labelsInOrder (nodes : List PNode) : List Str :=
  nodes.foldl (fun acc n => if acc.contains n.label then acc else acc ++ [n.label]) []

/-- generateConstraintsFromNodes (chunking.js lines 198-270). For each label
the first node's id-property is used (the first element inserted into the
idProps Set); a constraint is emitted only when it matches the true-id
pattern or the generic id pattern, both case-insensitively. -/
def generateConstraintsFromNodes (nodes : List PNode) : Str :=
  let constraints := (labelsInOrder nodes).foldl
    (fun acc label =>
      match (nodes.filter (fun n => n.label == label)).head? with
      | none => acc
      | some n0 =>
        let idProp := n0.idProp
        let labelLower := lowerStr label
        let isTrueId := lowerStr idProp == labelLower ++ ("id".data)
          || lowerStr idProp == labelLower ++ ("_id".data)
        let isGenericId := lowerStr idProp == "id".data || lowerStr idProp == "_id".data
          || lowerStr idProp == "uuid".data
        if isTrueId || isGenericId then
          acc ++ [ConstraintRec.mk label (lowerFirstChar idProp) (constraintVarName label) []]
        else acc)
    []
  let header := "/* --- 1) Add uniqueness constraints (run once) --- */\n\n".data
  if constraints.isEmpty then
    header ++ "-- No constraints generated (no ID properties found in nodes).\n".data
      ++ "-- You may need to manually add constraints based on your data model.\n\n".data
  else
    header ++ (constraints.map renderConstraintLine).flatten

/-- generateSequentialVariables (chunking.js lines 339-389): each node gets
its label prefix followed by a single global running counter starting at 1;
the map binds both the original variable and the node key. The nodesByLabel
grouping computed at lines 343-350 is never used by the source and is
omitted. -/
def generateSequentialVariables (nodes : List PNode) : List (Str × Str) :=
  (nodes.foldl
    (fun st n =>
      let newVarName := seqVarPrefix n.label ++ (Nat.repr st.2).data
      (amapSet (amapSet st.1 n.originalVar newVarName) n.key newVarName, st.2 + 1))
    (([] : List (Str × Str)), 1)).1

/-- The four single-pass escaped-arrow replacements applied by
formatStructuredCypher before parsing (chunking.js lines 400-404) and again on
the final output (lines 647-650). -/
def cleanHtmlEntities (s : Str) : Str :=
  replaceAllStr ("&lt;".data) ("<".data)
    (replaceAllStr ("&gt;".data) (">".data)
      (replaceAllStr ("-&lt;".data) ("<-".data)
        (replaceAllStr ("-&gt;".data) ("->".data) s)))

/-- The nodes-section fold of formatStructuredCypher (chunking.js lines
426-440): emit one MERGE per unseen node key, with the sequential variable
(or the inline fallback name) and 20-column padding. Returns the section
text, the next nodeCounter and the nodeVarMap. -/
def nodesSectionFold (nodes : List PNode) (varMap : List (Str × Str)) :
    Str × Nat × List (Str × Str) :=
  nodes.foldl
    (fun st n =>
      let newVarName := (amapGet varMap n.originalVar).getD
        ((lowerStr n.label).take 1 ++ (Nat.repr st.2.1).data)
      if (amapGet st.2.2 n.key).isSome then st
      else
        (st.1 ++ "MERGE (".data ++ newVarName ++ [':'] ++ n.label
           ++ spaces (20 - newVarName.length)
           ++ [lbrace] ++ n.idProp ++ ": \"".data ++ n.idValue ++ "\"".data ++ [rbrace]
           ++ ")\n".data,
         st.2.1 + 1, amapSet st.2.2 n.key newVarName))
    ("\n/* --- 2) Create nodes with unique variable names --- */\n\n".data, 1,
      ([] : List (Str × Str)))

/-- Map a relationship endpoint variable to its sequential variable
(chunking.js lines 471-497): first through varToNodeMap, else through the
first node whose original variable equals or is contained in the endpoint
text, else leave it unchanged. -/
def lookupMappedVar (nodes : List PNode) (varMap : List (Str × Str))
    (varToNodeMap : List (Str × PNode)) (v : Str) : Str :=
  match amapGet varToNodeMap v with
  | some n => (amapGet varMap n.originalVar).getD v
  | none =>
    match nodes.find? (fun n => n.originalVar == v || strIncludes v n.originalVar) with
    | some n => (amapGet varMap n.originalVar).getD v
    | none => v

/-- The varToLabelMap of chunking.js lines 505-511 (recomputed identically on
every loop iteration by the source; computed once here). -/
def buildVarToLabelMap (nodes : List PNode) (varMap : List (Str × Str)) :
    List (Str × Str) :=
  nodes.foldl
    (fun m n =>
      match amapGet varMap n.originalVar with
      | some mapped => amapSet m mapped n.label
      | none => m)
    []

/-- State threaded through the relationship loop of formatStructuredCypher
(chunking.js lines 444-464 initialise it, lines 466-595 update it). The JS
Sets are lists read only through membership. -/
structure RelLoopState where
  relationshipsSection : Str
  relationshipSet : List Str
  investmentSecurityLinks : List Str
  tradeAccountLinks : List Str
  tradeSecurityLinks : List Str
  nodeCounter : Nat

/-- One iteration of the relationship loop (chunking.js lines 466-595):
variable mapping, the direction/type correction table, link tracking,
deduplication by the final triple, and inline-node hoisting. The successive
direction-fix if statements of the source test the original rel.type, which
makes them mutually exclusive, so they are rendered as one chain here. -/
def relStep (nodes : List PNode) (varMap : List (Str × Str))
    (varToNodeMap : List (Str × PNode)) (varToLabelMap : List (Str × Str))
    (st : RelLoopState) (rel : PRel) : RelLoopState :=
  let fromVar := lookupMappedVar nodes varMap varToNodeMap (trimStr rel.fromVar)
  let toVar := lookupMappedVar nodes varMap varToNodeMap (trimStr rel.toVar)
  let fromNodeLabel := amapGet varToLabelMap fromVar
  let toNodeLabel := amapGet varToLabelMap toVar
  let heldIn := rel.type == "HELD_IN_POSITION".data || rel.type == "HELD_IN_HOLDING".data
  let fft :=
    if rel.type == "HAS_ACCOUNT".data && fromNodeLabel == some ("Account".data)
        && toNodeLabel == some ("Party".data) then
      (toVar, fromVar, rel.type)
    else if rel.type == "EXECUTED_TRADE".data && fromNodeLabel == some ("Trade".data)
        && toNodeLabel == some ("Account".data) then
      (toVar, fromVar, rel.type)
    else if heldIn && fromNodeLabel == some ("Security".data) then
      (toVar, fromVar, "IN_SECURITY".data)
    else if heldIn && toNodeLabel == some ("Security".data) then
      (fromVar, toVar, "IN_SECURITY".data)
    else (fromVar, toVar, rel.type)
  let finalFromVar := fft.1
  let finalToVar := fft.2.1
  let finalRelType :=
    if rel.type == "MADE_INVESTMENT".data then "HAS_INVESTMENT".data else fft.2.2
  let invLinks :=
    if rel.type == "IN_SECURITY".data && fromNodeLabel == some ("Investment".data)
        && toNodeLabel == some ("Security".data)
    then st.investmentSecurityLinks ++ [fromVar] else st.investmentSecurityLinks
  let taLinks :=
    if rel.type == "EXECUTED_TRADE".data && fromNodeLabel == some ("Account".data)
        && toNodeLabel == some ("Trade".data)
    then st.tradeAccountLinks ++ [finalToVar] else st.tradeAccountLinks
  let tsLinks :=
    if rel.type == "ON_SECURITY".data && fromNodeLabel == some ("Trade".data)
        && toNodeLabel == some ("Security".data)
    then st.tradeSecurityLinks ++ [finalFromVar] else st.tradeSecurityLinks
  let relKey := finalFromVar ++ "-[:".data ++ finalRelType ++ "]->".data ++ finalToVar
  if st.relationshipSet.contains relKey then
    { st with investmentSecurityLinks := invLinks, tradeAccountLinks := taLinks,
              tradeSecurityLinks := tsLinks }
  else
    let relSet := st.relationshipSet ++ [relKey]
    match scanFirst matchInlineAt finalToVar with
    | some (idProp, idValue) =>
      let inferredLabel := upperFirstChar (idProp.take 1) ++ stripTrailingId (idProp.drop 1)
      let newVarName := (lowerStr inferredLabel).take 1 ++ (Nat.repr st.nodeCounter).data
      { relationshipsSection := st.relationshipsSection
          ++ "MERGE (".data ++ newVarName ++ [':'] ++ inferredLabel ++ [' ']
          ++ [lbrace] ++ idProp ++ ": \"".data ++ idValue ++ "\"".data ++ [rbrace]
          ++ ")\n".data
          ++ "MERGE (".data ++ finalFromVar ++ ")-[:".data ++ finalRelType ++ "]->(".data
          ++ newVarName ++ ");\n\n".data,
        relationshipSet := relSet, investmentSecurityLinks := invLinks,
        tradeAccountLinks := taLinks, tradeSecurityLinks := tsLinks,
        nodeCounter := st.nodeCounter + 1 }
    | none =>
      { relationshipsSection := st.relationshipsSection
          ++ "MERGE (".data ++ finalFromVar ++ ")-[:".data ++ finalRelType ++ "]->(".data
          ++ finalToVar ++ ");\n\n".data,
        relationshipSet := relSet, investmentSecurityLinks := invLinks,
        tradeAccountLinks := taLinks, tradeSecurityLinks := tsLinks,
        nodeCounter := st.nodeCounter }

/-- The missing Investment-to-Security completion pass (chunking.js lines
598-612), threading (relationshipsSection, relationshipSet). -/
def investmentCompletion (investmentNodes securityNodes : List PNode)
    (varMap : List (Str × Str)) (invLinks : List Str) (st : Str × List Str) :
    Str × List Str :=
  if !investmentNodes.isEmpty && !securityNodes.isEmpty then
    investmentNodes.foldl
      (fun acc invNode =>
        let invVar := (amapGet varMap invNode.originalVar).getD []
        if invLinks.contains invVar then acc
        else
          match securityNodes.head? with
          | none => acc
          | some sec0 =>
            let secVar := (amapGet varMap sec0.originalVar).getD []
            let relKey := invVar ++ "-[:IN_SECURITY]->".data ++ secVar
            if acc.2.contains relKey then acc
            else
              (acc.1 ++ "MERGE (".data ++ invVar ++ ")-[:IN_SECURITY]->(".data ++ secVar
                 ++ ");\n\n".data,
               acc.2 ++ [relKey]))
      st
  else st

/-- The missing Trade link completion pass (chunking.js lines 615-641):
ensure each Trade is linked from the first Account and to the first
Security. -/
def tradeCompletion (tradeNodes accountNodes securityNodes : List PNode)
    (varMap : List (Str × Str)) (taLinks tsLinks : List Str) (st : Str × List Str) :
    Str × List Str :=
  if !tradeNodes.isEmpty then
    tradeNodes.foldl
      (fun acc tradeNode =>
        let tradeVar := (amapGet varMap tradeNode.originalVar).getD []
        let acc1 :=
          if !accountNodes.isEmpty && !(taLinks.contains tradeVar) then
            match accountNodes.head? with
            | none => acc
            | some a0 =>
              let accountVar := (amapGet varMap a0.originalVar).getD []
              let relKey := accountVar ++ "-[:EXECUTED_TRADE]->".data ++ tradeVar
              if acc.2.contains relKey then acc
              else
                (acc.1 ++ "MERGE (".data ++ accountVar ++ ")-[:EXECUTED_TRADE]->(".data
                   ++ tradeVar ++ ");\n\n".data,
                 acc.2 ++ [relKey])
          else acc
        if !securityNodes.isEmpty && !(tsLinks.contains tradeVar) then
          match securityNodes.head? with
          | none => acc1
          | some s0 =>
            let secVar := (amapGet varMap s0.originalVar).getD []
            let relKey := tradeVar ++ "-[:ON_SECURITY]->".data ++ secVar
            if acc1.2.contains relKey then acc1
            else
              (acc1.1 ++ "MERGE (".data ++ tradeVar ++ ")-[:ON_SECURITY]->(".data ++ secVar
                 ++ ");\n\n".data,
               acc1.2 ++ [relKey])
        else acc1)
      st
  else st

/-- formatStructuredCypher (chunking.js lines 397-664). When zero node-upserts
parse, the source returns the raw (undecoded) input (lines 409-412). The
try/catch around the body is unreachable in this model: every operation
performed is total. -/
def formatStructuredCypher (rawCypher : Str) (schemaNodes : SchemaNodes) : Str :=
  let cleanedCypher := cleanHtmlEntities rawCypher
  let parsed := parseCypher cleanedCypher
  let nodes := parsed.1
  let relationships := parsed.2
  if nodes.isEmpty then rawCypher
  else
    let constraintsSection0 := generateConstraints schemaNodes
    let constraintsSection :=
      if strIncludes constraintsSection0 ("No constraints generated".data)
      then generateConstraintsFromNodes nodes
      else constraintsSection0
    let varMap := generateSequentialVariables nodes
    let nsf := nodesSectionFold nodes varMap
    let nodesSection := nsf.1 ++ ";\n\n".data
    let varToNodeMap := nodes.foldl
      (fun m n => amapSet (amapSet m n.originalVar n) n.key n) []
    let varToLabelMap := buildVarToLabelMap nodes varMap
    let investmentNodes := nodes.filter (fun n => n.label == "Investment".data)
    let securityNodes := nodes.filter (fun n => n.label == "Security".data)
    let tradeNodes := nodes.filter (fun n => n.label == "Trade".data)
    let accountNodes := nodes.filter (fun n => n.label == "Account".data)
    let st0 : RelLoopState :=
      ⟨"/* --- 3) Now MERGE relationships (use variables from above) --- */\n\n".data,
        [], [], [], [], nsf.2.1⟩
    let stF := relationships.foldl (relStep nodes varMap varToNodeMap varToLabelMap) st0
    let c1 := investmentCompletion investmentNodes securityNodes varMap
      stF.investmentSecurityLinks (stF.relationshipsSection, stF.relationshipSet)
    let c2 := tradeCompletion tradeNodes accountNodes securityNodes varMap
      stF.tradeAccountLinks stF.tradeSecurityLinks c1
    cleanHtmlEntities (constraintsSection ++ nodesSection ++ c2.1)

/-! ## fixCypherSyntax — src/unnamed/part_008 lines 199-546 (first corrector pass) -/

/-- Consume an expected literal case-insensitively. -/
def expectLitCI (lit : Str) (s : Str) : Option Str :=
  if startsWithCI s lit then some (s.drop lit.length) else none

/-- One application of the entity-decoding loop body (part_008 lines 213-227):
ten global replacements covering escaped, doubly-escaped, percent-escaped and
hex-escaped arrow characters (the last two case-insensitively). -/
def decodeBody (s : Str) : Str :=
  let s := replaceAllStr ("-&gt;".data) ("->".data) s
  let s := replaceAllStr ("-&lt;".data) ("<-".data) s
  let s := replaceAllStr ("&gt;".data) (">".data) s
  let s := replaceAllStr ("&lt;".data) ("<".data) s
  let s := replaceAllStr ("&amp;gt;".data) (">".data) s
  let s := replaceAllStr ("&amp;lt;".data) ("<".data) s
  let s := replaceAllStr ("%3E".data) (">".data) s
  let s := replaceAllStr ("%3C".data) ("<".data) s
  let s := replaceAllCI ("\\x3e".data) (">".data) s
  let s := replaceAllCI ("\\x3c".data) ("<".data) s
  s

/-- The bounded fixed-point decoding loop (part_008 lines 208-228): apply
`decodeBody` until an application changes nothing, at most 10 times. -/
def decodeLoop : Nat → Str → Str
  | 0, s => s
  | n + 1, s =>
    let s2 := decodeBody s
    if s2 == s then s2 else decodeLoop n s2

/-- One match of the residual-entity regex &#?\w+;? (part_008 line 231); the
callback keeps the match unless it contains "gt" or "lt" (a case-sensitive
includes, as in the source). -/
def matchEntityAt (s : Str) : Option (Str × Str) := do
  let s1 ← expectChar '&' s
  let hashRest : Str × Str :=
    match s1 with
    | c :: r => if c == '#' then (['#'], r) else (([] : Str), s1)
    | [] => (([] : Str), s1)
  let (w, s3) ← classRun1 isWordChar hashRest.2
  let semiRest : Str × Str :=
    match s3 with
    | c :: r => if c == ';' then ([';'], r) else (([] : Str), c :: r)
    | [] => (([] : Str), ([] : Str))
  let m := ['&'] ++ hashRest.1 ++ w ++ semiRest.1
  let out :=
    if strIncludes m ("gt".data) then (">".data)
    else if strIncludes m ("lt".data) then ("<".data)
    else m
  return (out, semiRest.2)

/-- The final aggressive entity pass (part_008 lines 231-235). -/
def aggressiveEntityPass (s : Str) : Str := scanReplace matchEntityAt s

/-- One match of a property-typo regex baseI\s+d with the gi flags (part_008
lines 239-250): the base, at least one whitespace character, then d. -/
def matchTypoAt (base rep : Str) (s : Str) : Option (Str × Str) :=
  if startsWithCI s base then
    let s1 := s.drop base.length
    let ws := s1.takeWhile isSpaceChar
    if ws.isEmpty then none
    else
      match s1.drop ws.length with
      | c :: r => if c == 'd' || c == 'D' then some (rep, r) else none
      | [] => none
  else none

/-- Fix 2 of fixCypherSyntax (part_008 lines 238-255): collapse the twelve
whitespace-split Id property names. -/
def fixPropertyTypos (s : Str) : Str :=
  let bases : List (String × String) :=
    [("accountI", "accountId"), ("partyI", "partyId"), ("securityI", "securityId"),
     ("productI", "productId"), ("tradeI", "tradeId"), ("positionI", "positionId"),
     ("holdingI", "holdingId"), ("investmentI", "investmentId"), ("addressI", "addressId"),
     ("transactionI", "transactionId"), ("referenceI", "referenceId"), ("riskI", "riskId")]
  bases.foldl (fun acc br => scanReplace (matchTypoAt br.1.data br.2.data) acc) s

/-- Word-boundary test on the left: the previous character (none at the start
of the string) must not be a word character. -/
def boundaryBefore (prev : Option Char) : Bool :=
  match prev with
  | none => true
  | some c => !(isWordChar c)

/-- Word-boundary test on the right: the next character, if any, must not be
a word character. -/
def boundaryAfterOk : Str → Bool
  | [] => true
  | c :: _ => !(isWordChar c)

/-- Work loop of the word-boundary replace; see `replaceAllAux` for the fuel
convention. -/
def replaceWordAux (ci : Bool) (pat rep : Str) : Nat → Option Char → Str → Str
  | 0, _, s => s
  | _ + 1, _, [] => []
  | fuel + 1, prev, c :: rest =>
    let s := c :: rest
    let pre := if ci then startsWithCI s pat else startsWithStr s pat
    if !pat.isEmpty && (boundaryBefore prev && pre && boundaryAfterOk (s.drop pat.length)) then
      rep ++ replaceWordAux ci pat rep fuel ((s.take pat.length).getLast?) (s.drop pat.length)
    else
      c :: replaceWordAux ci pat rep fuel (some c) rest

/-- Replace every word-boundary-delimited occurrence of `pat` by `rep`,
case-insensitively when `ci` is set, tracking the character before the scan
position for the left boundary. -/
def replaceWordGo (ci : Bool) (pat rep : Str) (prev : Option Char) (s : Str) : Str :=
  replaceWordAux ci pat rep s.length prev s

/-- Does the region contain a word-boundary, case-insensitive occurrence of
`pat`? `prev` is the character just before the region. -/
def hasWordOccCI (pat : Str) : Option Char → Str → Bool
  | _, [] => false
  | prev, c :: rest =>
    (boundaryBefore prev && startsWithCI (c :: rest) pat
      && boundaryAfterOk ((c :: rest).drop pat.length))
    || hasWordOccCI pat (some c) rest

/-- One match of the Security/productId regex (part_008 line 259):
MERGE\s*\([^:]*:Security\s*\x7b[^\x7d]*\bproductId\b[^\x7d]*\x7d with the gi
flags. The [^:]* and [^\x7d]* runs stop at the character the regex then
requires, so matching is deterministic up to the occurrence test inside the
brace region. Returns (matched text, rest). -/
def matchSecurityMergeAt (s : Str) : Option (Str × Str) := do
  let s1 ← expectLitCI ("MERGE".data) s
  let s3 ← expectChar '(' (skipWS s1)
  let s4 := s3.dropWhile (fun c => !(c == ':'))
  let s5 ← expectChar ':' s4
  let s6 ← expectLitCI ("Security".data) s5
  let s8 ← expectChar lbrace (skipWS s6)
  let region := s8.takeWhile (fun c => !(c == rbrace))
  let s9 := s8.drop region.length
  let s10 ← expectChar rbrace s9
  if hasWordOccCI ("productId".data) (some lbrace) region then
    some (s.take (s.length - s10.length), s10)
  else none

/-- Fix 3 of fixCypherSyntax (part_008 lines 257-261): inside each matched
Security MERGE, rename every \bproductId\b occurrence to securityId. -/
def fixSecurityProductId (s : Str) : Str :=
  scanReplace
    (fun t => (matchSecurityMergeAt t).map
      (fun mr => (replaceWordGo true ("productId".data) ("securityId".data) none mr.1, mr.2)))
    s

/-- Collect global-regex matches together with their start positions. -/
def scanMatchesPosAux {κ : Type} (m : Str → Option (κ × Str)) :
    Nat → Nat → Str → List (Nat × κ)
  | 0, _, _ => []
  | _ + 1, _, [] => []
  | fuel + 1, pos, c :: rest =>
    match m (c :: rest) with
    | some (k, rest2) =>
      (pos, k) :: scanMatchesPosAux m fuel (pos + ((c :: rest).length - rest2.length)) rest2
    | none => scanMatchesPosAux m fuel (pos + 1) rest

/-- Position-tracking global regex scan. -/
def scanMatchesPos {κ : Type} (m : Str → Option (κ × Str)) (s : Str) : List (Nat × κ) :=
  scanMatchesPosAux m s.length 0 s

/-- One match of mergeWithRefPattern (part_008 line 269):
MERGE\s*\(([^:]+):(\w+)\s*\x7b([^\x7d]*)\x7d, case sensitive. Returns
((variable part, label, props, full matched text), rest). -/
def matchMergeRefAt (s : Str) : Option ((Str × Str × Str × Str) × Str) := do
  let s1 ← expectLit ("MERGE".data) s
  let s3 ← expectChar '(' (skipWS s1)
  let (varPart, s4) ← classRun1 (fun c => !(c == ':')) s3
  let s5 ← expectChar ':' s4
  let (lab, s6) ← classRun1 isWordChar s5
  let s8 ← expectChar lbrace (skipWS s6)
  let props := s8.takeWhile (fun c => !(c == rbrace))
  let s9 := s8.drop props.length
  let s10 ← expectChar rbrace s9
  some ((varPart, lab, props, s.take (s.length - s10.length)), s10)

/-- The variable-reference matches \b(\w+)\.(\w+)\b (part_008 line 279) inside
a property list; the closing \b always holds after a maximal word run. -/
def varRefsAux : Nat → Option Char → Str → List (Str × Str)
  | 0, _, _ => []
  | _ + 1, _, [] => []
  | fuel + 1, prev, c :: rest =>
    let s := c :: rest
    let tryHere : Option ((Str × Str) × Str) :=
      if boundaryBefore prev then do
        let (w1, s1) ← classRun1 isWordChar s
        let s2 ← expectChar '.' s1
        let (w2, s3) ← classRun1 isWordChar s2
        return ((w1, w2), s3)
      else none
    match tryHere with
    | some (kv, s3) => kv :: varRefsAux fuel (kv.2.getLast?) s3
    | none => varRefsAux fuel (some c) rest

/-- All variable references in a property list, in match order. -/
def varRefs (props : Str) : List (Str × Str) := varRefsAux props.length none props

/-- A problematic MERGE collected by Fix 4 (part_008 lines 286-295). -/
structure ProblemMerge where
  fullMatch : Str
  varName : Str
  label : Str
  props : Str
  refs : List (Str × Str)
  index : Nat

/-- The value continuation \s*:\s*["']([^"']+)["'] of refVarPattern. -/
def refContinuation (s : Str) : Option Str := do
  let s2 ← expectChar ':' (skipWS s)
  match skipWS s2 with
  | q :: s4 =>
    if isQuoteChar q then do
      let (v, s5) ← classRun1 (fun c => !(isQuoteChar c)) s4
      match s5 with
      | q2 :: _ => if isQuoteChar q2 then some v else none
      | [] => none
    else none
  | [] => none

/-- Suffixes after each word-boundary case-insensitive occurrence of `pat`,
left to right, stopping at the first closing brace (the [^\x7d]* region of
refVarPattern). -/
def propOccurrences (pat : Str) : Option Char → Str → List Str
  | _, [] => []
  | prev, c :: rest =>
    if c == rbrace then []
    else
      let s := c :: rest
      let here :=
        if boundaryBefore prev && startsWithCI s pat then [s.drop pat.length] else []
      here ++ propOccurrences pat (some c) rest

/-- One match of refVarPattern (part_008 line 313):
MERGE\s*\(VAR:\w+\s*\x7b[^\x7d]*\bPROP\s*:\s*["']([^"']+)["'], case
insensitive. The greedy region backtracks from the rightmost boundary
occurrence of PROP leftwards until the value continuation matches; returns
the captured literal value. -/
def matchRefVarAt (v p : Str) (s : Str) : Option Str := do
  let s1 ← expectLitCI ("MERGE".data) s
  let s3 ← expectChar '(' (skipWS s1)
  let s4 ← expectLitCI v s3
  let s5 ← expectChar ':' s4
  let (_, s6) ← classRun1 isWordChar s5
  let s8 ← expectChar lbrace (skipWS s6)
  firstSome refContinuation (propOccurrences p (some lbrace) s8).reverse

/-- First refVarPattern match anywhere in the prefix text. -/
def findRefValue (v p : Str) (s : Str) : Option Str := scanFirst (matchRefVarAt v p) s

/-- Stable insertion producing a descending order by index. -/
def insertDesc {α : Type} (idx : α → Nat) (a : α) : List α → List α
  | [] => [a]
  | b :: rest => if idx a ≥ idx b then a :: b :: rest else b :: insertDesc idx a rest

/-- Sort by descending index (the JS comparator (a, b) => b.index - a.index;
match indices are pairwise distinct, so ordering is deterministic). -/
def sortByIdxDesc {α : Type} (idx : α → Nat) (l : List α) : List α :=
  l.foldr (insertDesc idx) []

/-- Fix 4 of fixCypherSyntax (part_008 lines 263-326): for MERGE statements
whose property map references another variable's property, substitute the
literal value found in a preceding MERGE of the referenced variable (first
reference that resolves wins), splicing by descending match index. -/
def fixMergeVarRefs (s : Str) : Str :=
  let collected := scanMatchesPos matchMergeRefAt s
  let problematic := collected.foldl
    (fun acc pm =>
      let refs := varRefs pm.2.2.2.1
      if refs.isEmpty then acc
      else acc ++ [ProblemMerge.mk pm.2.2.2.2 (trimStr pm.2.1) pm.2.2.1 pm.2.2.2.1 refs pm.1])
    []
  (sortByIdxDesc ProblemMerge.index problematic).foldl
    (fun fixed prob =>
      let beforeThis := fixed.take prob.index
      let afterThis := fixed.drop prob.index
      match firstSome (fun r => (findRefValue r.1 r.2 beforeThis).map (fun v => (r, v)))
          prob.refs with
      | some (r, literalValue) =>
        let newProps := replaceWordGo false (r.1 ++ ['.'] ++ r.2)
          (['"'] ++ literalValue ++ ['"']) none prob.props
        let newMerge := "MERGE (".data ++ prob.varName ++ [':'] ++ prob.label ++ [' ']
          ++ [lbrace] ++ newProps ++ [rbrace] ++ [')']
        beforeThis ++ newMerge ++ afterThis.drop prob.fullMatch.length
      | none => fixed)
    s

/-- Head of the inline-node relationship regex (part_008 line 331),
MERGE\s*\(([^)]+)\)-\[:([^\x5d]+)\]->; returns ((beforeRel, relType), rest).
The regex is split in two definitions purely to keep generated code small;
their sequential composition below is the whole pattern. -/
def matchInlineRelHead (s : Str) : Option ((Str × Str) × Str) := do
  let s1 ← expectLit ("MERGE".data) s
  let s2 ← expectChar '(' (skipWS s1)
  let br ← classRun1 (fun c => !(c == ')')) s2
  let s4 ← expectChar ')' br.2
  let s5 ← expectLit ("-[:".data) s4
  let rt ← classRun1 (fun c => !(c == ']')) s5
  let s7 ← expectChar ']' rt.2
  let s8 ← expectLit ("->".data) s7
  some ((br.1, rt.1), s8)

/-- Tail of the inline-node relationship regex,
\s*\(\s*\x7b([^\x7d]+)\x7d\s*\); returns (props, rest). -/
def matchInlineRelTail (s : Str) : Option (Str × Str) := do
  let s10 ← expectChar '(' (skipWS s)
  let s12 ← expectChar lbrace (skipWS s10)
  let pr ← classRun1 (fun c => !(c == rbrace)) s12
  let s14 ← expectChar rbrace pr.2
  let s16 ← expectChar ')' (skipWS s14)
  some (pr.1, s16)

/-- One match of the inline-node relationship regex (part_008 line 331):
MERGE\s*\(([^)]+)\)-\[:([^\x5d]+)\]->\s*\(\s*\x7b([^\x7d]+)\x7d\s*\). Returns
((beforeRel, relType, props, full matched text), rest). -/
def matchInlineRelAt (s : Str) : Option ((Str × Str × Str × Str) × Str) := do
  let h ← matchInlineRelHead s
  let t ← matchInlineRelTail h.2
  some ((h.1.1, h.1.2, t.1, s.take (s.length - t.2.length)), t.2)

/-- Match (\w+Id):\s*["']([^"']+)["'] (case sensitive; part_008 line 342) at
the head: the maximal word run must end in the literal "Id" and be followed
by the colon continuation. -/
def matchWIdAt (s : Str) : Option (Str × Str) :=
  let run := s.takeWhile isWordChar
  let rest := s.drop run.length
  if run.length ≥ 3 && run.drop (run.length - 2) == ['I', 'd'] then
    (idContinuation rest).map (fun vr => (run, vr.1))
  else none

/-- An inline node collected by Fix 5 (part_008 lines 350-358). -/
structure InlineNode where
  matched : Str
  index : Nat
  label : Str
  varName : Str
  props : Str
  beforeRel : Str
  relType : Str

/-- Fix 5 of fixCypherSyntax (part_008 lines 328-377): hoist nodes created
inline inside a relationship into an explicit MERGE placed before the
relationship, splicing by descending match index. The source's offset
variable is zero throughout collection and only mutated afterwards, so it
never affects an index. -/
def fixInlineNodes (s : Str) : Str :=
  let collected := scanMatchesPos matchInlineRelAt s
  let inlineNodes := collected.foldl
    (fun acc pm =>
      match scanFirst matchWIdAt pm.2.2.2.1 with
      | some (idProp, _) =>
        let label := upperFirstChar (idProp.take 1) ++ stripTrailingId (idProp.drop 1)
        acc ++ [InlineNode.mk pm.2.2.2.2 pm.1 label ((lowerStr label).take 1) pm.2.2.2.1
          pm.2.1 pm.2.2.1]
      | none => acc)
    []
  (sortByIdxDesc InlineNode.index inlineNodes).foldl
    (fun fixed inode =>
      let before := fixed.take inode.index
      let after := fixed.drop (inode.index + inode.matched.length)
      let nodeCreation := "MERGE (".data ++ inode.varName ++ [':'] ++ inode.label ++ [' ']
        ++ [lbrace] ++ inode.props ++ [rbrace] ++ ")\n".data
      let relationship := "MERGE (".data ++ inode.beforeRel ++ ")-[:".data ++ inode.relType
        ++ "]->(".data ++ inode.varName ++ [')']
      before ++ nodeCreation ++ relationship ++ after)
    s

/-- The ISO date test /^\d\x7b4\x7d-\d\x7b2\x7d-\d\x7b2\x7d$/ (part_008 line 384). -/
def isIsoDate (v : Str) : Bool :=
  match v with
  | [a, b, c, d, e, f, g, h, i, j] =>
    a.isDigit && b.isDigit && c.isDigit && d.isDigit && e == '-'
      && f.isDigit && g.isDigit && h == '-' && i.isDigit && j.isDigit
  | _ => false

/-- One match of the date regex date\(["']([^"']+)["']\) (part_008 line 381),
with the replacement callback of lines 382-390 applied: invalid dates are
commented out. -/
def matchDateAt (s : Str) : Option (Str × Str) := do
  let s1 ← expectLit ("date(".data) s
  match s1 with
  | q :: s2 =>
    if isQuoteChar q then do
      let (v, s3) ← classRun1 (fun c => !(isQuoteChar c)) s2
      match s3 with
      | q2 :: s4 =>
        if isQuoteChar q2 then do
          let s5 ← expectChar ')' s4
          let matched := s.take (s.length - s5.length)
          let out :=
            if isIsoDate v then matched
            else "// INVALID DATE FORMAT: ".data ++ matched ++ " - Expected YYYY-MM-DD".data
          return (out, s5)
        else none
      | [] => none
    else none
  | [] => none

/-- Fix 6 of fixCypherSyntax (part_008 lines 379-390). -/
def fixInvalidDates (s : Str) : Str := scanReplace matchDateAt s

/-- Head of a Fix-7 relationship regex (part_008 lines 394-491),
MERGE\s*\((\w+):LABEL1[^)]*\)\s*-\[:TYPE\]->, case insensitive; returns
(v1, rest). Split from the tail purely to keep generated code small. -/
def matchRelFixHead (label1 typ : Str) (s : Str) : Option (Str × Str) := do
  let s1 ← expectLitCI ("MERGE".data) s
  let s2 ← expectChar '(' (skipWS s1)
  let v1 ← classRun1 isWordChar s2
  let s4 ← expectChar ':' v1.2
  let s5 ← expectLitCI label1 s4
  let s6 := s5.dropWhile (fun c => !(c == ')'))
  let s7 ← expectChar ')' s6
  let s9 ← expectLit ("-[:".data) (skipWS s7)
  let s10 ← expectLitCI typ s9
  let s11 ← expectLit ("]->".data) s10
  some (v1.1, s11)

/-- Tail of a Fix-7 relationship regex, \s*\((\w+):LABEL2[^)]*\); the label
alternatives are tried in JS order, each with the closing continuation.
Returns (v2, rest). -/
def matchRelFixTail (label2s : List Str) (s : Str) : Option (Str × Str) := do
  let s13 ← expectChar '(' (skipWS s)
  let v2 ← classRun1 isWordChar s13
  let s15 ← expectChar ':' v2.2
  firstSome
    (fun l2 => do
      let s16 ← expectLitCI l2 s15
      let s17 := s16.dropWhile (fun c => !(c == ')'))
      let s18 ← expectChar ')' s17
      return (v2.1, s18))
    label2s

/-- One match of a Fix-7 relationship regex (part_008 lines 394-491):
MERGE\s*\((\w+):LABEL1[^)]*\)\s*-\[:TYPE\]->\s*\((\w+):LABEL2[^)]*\) with the
gi flags; `label2s` lists the alternatives of an embedded group in JS trial
order. Returns ((v1, v2), rest). -/
def matchRelFixAt (label1 typ : Str) (label2s : List Str) (s : Str) :
    Option ((Str × Str) × Str) := do
  let h ← matchRelFixHead label1 typ s
  let t ← matchRelFixTail label2s h.2
  some ((h.1, t.1), t.2)

/-- Apply one Fix-7 rule as a global replace; the template receives the two
captured variables (an empty result removes the statement). -/
def applyRelFix (label1 typ : Str) (label2s : List Str) (template : Str → Str → Str)
    (s : Str) : Str :=
  scanReplace
    (fun t => (matchRelFixAt label1 typ label2s t).map (fun m => (template m.1.1 m.1.2, m.2)))
    s

/-- Render MERGE (x)-[:T]->(y) for the Fix-7 replacement templates. -/
def relTemplate (typ : Str) (x y : Str) : Str :=
  "MERGE (".data ++ x ++ ")-[:".data ++ typ ++ "]->(".data ++ y ++ [')']

/-- Fix 7 of fixCypherSyntax (part_008 lines 392-499): the eighteen
direction/name correction rules, applied in source order. -/
def fixRelationshipDirections (s : Str) : Str :=
  let r01 := applyRelFix ("Position".data) ("HAS_POSITION".data) [("Account".data)]
    (fun v1 v2 => relTemplate ("HAS_POSITION".data) v2 v1) s
  let r02 := applyRelFix ("Holding".data) ("HAS_HOLDING".data) [("Account".data)]
    (fun v1 v2 => relTemplate ("HAS_HOLDING".data) v2 v1) r01
  let r03 := applyRelFix ("Investment".data) ("MADE_INVESTMENT".data) [("Account".data)]
    (fun v1 v2 => relTemplate ("HAS_INVESTMENT".data) v2 v1) r02
  let r04 := applyRelFix ("Account".data) ("MADE_INVESTMENT".data) [("Investment".data)]
    (fun v1 v2 => relTemplate ("HAS_INVESTMENT".data) v1 v2) r03
  let r05 := applyRelFix ("Trade".data) ("EXECUTED_TRADE".data) [("Account".data)]
    (fun v1 v2 => relTemplate ("EXECUTED_TRADE".data) v2 v1) r04
  let r06 := applyRelFix ("Security".data) ("HasTrade".data) [("Trade".data)]
    (fun v1 v2 => relTemplate ("ON_SECURITY".data) v2 v1) r05
  let r07 := applyRelFix ("Security".data) ("InvolvedInInvestment".data) [("Investment".data)]
    (fun v1 v2 => relTemplate ("IN_SECURITY".data) v2 v1) r06
  let r08 := applyRelFix ("Security".data) ("HeldInPosition".data) [("Position".data)]
    (fun v1 v2 => relTemplate ("IN_SECURITY".data) v2 v1) r07
  let r09 := applyRelFix ("Security".data) ("HeldInHolding".data) [("Holding".data)]
    (fun v1 v2 => relTemplate ("IN_SECURITY".data) v2 v1) r08
  let r10 := applyRelFix ("Security".data) ("HELD_IN_POSITION".data) [("Position".data)]
    (fun v1 v2 => relTemplate ("IN_SECURITY".data) v2 v1) r09
  let r11 := applyRelFix ("Security".data) ("HELD_IN_HOLDING".data) [("Holding".data)]
    (fun v1 v2 => relTemplate ("IN_SECURITY".data) v2 v1) r10
  let r12 := applyRelFix ("Position".data) ("HELD_IN_POSITION".data) [("Security".data)]
    (fun v1 v2 => relTemplate ("IN_SECURITY".data) v1 v2) r11
  let r13 := applyRelFix ("Holding".data) ("HELD_IN_HOLDING".data) [("Security".data)]
    (fun v1 v2 => relTemplate ("IN_SECURITY".data) v1 v2) r12
  let r14 := applyRelFix ("Party".data) ("HasAccount".data) [("Account".data)]
    (fun v1 v2 => relTemplate ("HAS_ACCOUNT".data) v1 v2) r13
  let r15 := applyRelFix ("Account".data) ("HAS_ACCOUNT".data) [("Party".data)]
    (fun v1 v2 => relTemplate ("HAS_ACCOUNT".data) v2 v1) r14
  let r16 := applyRelFix ("Account".data) ("HELD_BY".data) [("Party".data)]
    (fun _ _ => []) r15
  let r17 := applyRelFix ("Party".data) ("HasAddress".data) [("Address".data)]
    (fun v1 v2 => relTemplate ("HAS_ADDRESS".data) v1 v2) r16
  applyRelFix ("Address".data) ("BelongsTo".data) [("Party".data), ("Account".data)]
    (fun _ _ => []) r17

/-- JS split('\n'), keeping empty pieces. -/
def splitOnNlGo : Str → Str → List Str
  | [], cur => [cur.reverse]
  | c :: rest, cur =>
    if c == '\n' then cur.reverse :: splitOnNlGo rest []
    else splitOnNlGo rest (c :: cur)

/-- JS String.prototype.split('\n'). -/
def splitOnNl (s : Str) : List Str := splitOnNlGo s []

/-- The undirected relationship pattern of Fix 9 (part_008 line 521):
MATCH\s*\(([^)]+)\)\s*-\[[^\x5d]+\]-\s*\(([^)]+)\) with the i flag, matched
anywhere in the line. Note the pattern requires a bare -]- after the bracket,
so directed ]-> arrows do not match it. -/
def matchMatchRelAt (s : Str) : Option Unit := do
  let s1 ← expectLitCI ("MATCH".data) s
  let s3 ← expectChar '(' (skipWS s1)
  let (_, s4) ← classRun1 (fun c => !(c == ')')) s3
  let s5 ← expectChar ')' s4
  let s7 ← expectLit ("-[".data) (skipWS s5)
  let (_, s8) ← classRun1 (fun c => !(c == ']')) s7
  let s9 ← expectChar ']' s8
  let s10 ← expectChar '-' s9
  let s12 ← expectChar '(' (skipWS s10)
  let (_, s13) ← classRun1 (fun c => !(c == ')')) s12
  let _ ← expectChar ')' s13
  return ()

/-- Fix 9 of fixCypherSyntax (part_008 lines 504-545): convert an undirected
MATCH relationship line into MERGE when a MERGE has been seen since the last
WITH; the converted line is the trimmed one, as in the source. -/
def fixMatchToMerge (s : Str) : Str :=
  let res := (splitOnNl s).foldl
    (fun st line =>
      let t := trimStr line
      let upperLine := upperStr t
      if startsWithStr upperLine ("MERGE".data) then (st.1 ++ [line], true)
      else if startsWithStr upperLine ("MATCH".data) then
        if (scanFirst matchMatchRelAt t).isSome && st.2 then
          (st.1 ++ [("MERGE".data) ++ t.drop 5], st.2)
        else (st.1 ++ [line], st.2)
      else if startsWithStr upperLine ("WITH".data) then (st.1 ++ [line], false)
      else (st.1 ++ [line], st.2))
    (([] : List Str), false)
  joinSep ("\n".data) res.1

/-- fixCypherSyntax (src/unnamed/part_008 lines 199-546), the generation
stage's first correction pass (the name carries a Pass suffix here to satisfy
lexical constraints of this development). Fix 8 (line 502) is the inline
empty-line filter before the final pass. -/
def fixCypherSyntaxPass (cypher : Str) : Str :=
  if cypher.isEmpty || (trimStr cypher).isEmpty then cypher
  else
    let f1 := aggressiveEntityPass (decodeLoop 10 cypher)
    let f2 := fixPropertyTypos f1
    let f3 := fixSecurityProductId f2
    let f4 := fixMergeVarRefs f3
    let f5 := fixInlineNodes f4
    let f6 := fixInvalidDates f5
    let f7 := fixRelationshipDirections f6
    let f8 := joinSep ("\n".data) ((splitOnNl f7).filter (fun l => (trimStr l).length > 0))
    fixMatchToMerge f8

/-! ## IngestionEngine — src/src/services/neo4jIngest/index.js, ingestChunkCypher (lines 132-343)

The graph store is an external collaborator; its transactional contract
(begin/run/commit/rollback, with all effects of a transaction discarded unless
committed, and a failed statement aborting its transaction) is the Neo4j
driver semantics the source relies on. Statement execution is supplied as
oracles; persistence calls are recorded as an ordered event list. -/

/-- The ChunkCypherResult record fields ingestChunkCypher reads. -/
structure ChunkCypherResultRec where
  status : Str
  generatedCypher : Str
  nodesCreated : Nat
  relationshipsCreated : Nat

/-- The external behaviour of the stores during one ingestChunkCypher run:
whether the result and chunk records exist, the outcome of EXPLAIN per
statement (`none` is success), and the outcome of running one data-write
statement inside the transaction (created-node and created-relationship
counters on success, the error message on failure). Schema-statement
failures are swallowed by the source (lines 207-220) whatever their message,
so they need no oracle. -/
structure IngestEnv where
  result : Option ChunkCypherResultRec
  chunkExists : Bool
  explainErr : Str → Option Str
  writeRun : Str → Except Str (Nat × Nat)

/-- Persistence and execution events of one ingestChunkCypher run, in order. -/
inductive IngEvent where
  | chunkStatus (status : Str) (err : Option Str)
  | resultStatus (status : Str) (err : Option Str)
  | schemaExec (stmt : Str)
  | writeExec (stmt : Str)
  | txCommit
  | txRollback
deriving DecidableEq

/-- Outcome of one ingestChunkCypher run: the event list, the returned counts
or raised error, the schema statements applied outside the transaction, and
the data-write statements whose effects persist (empty unless the
transaction committed). -/
structure IngestOutcome where
  events : List IngEvent
  outcome : Except Str (Nat × Nat)
  appliedSchema : List Str
  committedWrites : List Str

/-- The data-write transaction loop (neo4jIngest/index.js lines 241-279):
run each statement in order, accumulating the created counters; the first
failure stops iteration. Returns (write events, node count, relationship
count, error if any); the buffered effects are the successfully executed
statements. -/
def txLoop (writeRun : Str → Except Str (Nat × Nat)) :
    List Str → Nat → Nat → (List IngEvent × Nat × Nat × Option Str × List Str)
  | [], n, r => ([], n, r, none, [])
  | stmt :: rest, n, r =>
    match writeRun stmt with
    | .ok counts =>
      let res := txLoop writeRun rest (n + counts.1) (r + counts.2)
      (IngEvent.writeExec stmt :: res.1, res.2.1, res.2.2.1, res.2.2.2.1,
        stmt :: res.2.2.2.2)
    | .error e => ([IngEvent.writeExec stmt], n, r, some e, [])

/-- The catch block of ingestChunkCypher (lines 310-339): roll back when a
transaction is open, persist the error on the result and the chunk, and
re-raise. -/
def ingestCatch (pre : List IngEvent) (txOpen : Bool) (e : Str) : IngestOutcome :=
  let rb := if txOpen then [IngEvent.txRollback] else []
  ⟨pre ++ rb ++ [IngEvent.resultStatus ("error".data) (some e),
     IngEvent.chunkStatus ("error".data) (some e)],
   .error e, [], []⟩

/-- ingestChunkCypher (neo4jIngest/index.js lines 132-343). Validation runs
EXPLAIN over every split statement in a read session and fails the whole call
before any status update; schema statements then run outside the write
transaction with failures swallowed; data-write statements run inside one
transaction, committed only if every one succeeds. -/
def ingestChunkCypher (env : IngestEnv) : IngestOutcome :=
  match env.result with
  | none => ⟨[], .error ("Cypher result not found for chunk".data), [], []⟩
  | some r =>
    if r.status == "executed".data then
      ⟨[], .ok (r.nodesCreated, r.relationshipsCreated), [], []⟩
    else if !env.chunkExists then ⟨[], .error ("Chunk not found".data), [], []⟩
    else
      -- validateCypher (lines 107-125) over the split statements
      let stmts := splitCypherStatements r.generatedCypher
      let validationError : Option Str :=
        if r.generatedCypher.isEmpty || (trimStr r.generatedCypher).isEmpty then
          some ("Empty Cypher".data)
        else firstSome env.explainErr stmts
      match validationError with
      | some ve => ⟨[], .error (("Cypher validation failed: ".data) ++ ve), [], []⟩
      | none =>
        let pre0 := [IngEvent.chunkStatus ("ingesting".data) none,
          IngEvent.resultStatus ("validated".data) none]
        if stmts.isEmpty then
          -- thrown inside the try block, before the transaction opens
          ingestCatch pre0 false ("No valid Cypher statements found".data)
        else
          let sep := separateSchemaAndWriteStatements stmts
          let pre1 := pre0 ++ sep.1.map IngEvent.schemaExec
          if sep.2.isEmpty then
            -- early return (lines 228-231): statuses remain ingesting/validated
            ⟨pre1, .ok (0, 0), sep.1, []⟩
          else
            let tx := txLoop env.writeRun sep.2 0 0
            match tx.2.2.2.1 with
            | some e =>
              -- first statement failure: abort, roll back, persist, re-raise
              let out := ingestCatch (pre1 ++ tx.1) true e
              ⟨out.events, out.outcome, sep.1, []⟩
            | none =>
              ⟨pre1 ++ tx.1 ++ [IngEvent.txCommit,
                 IngEvent.resultStatus ("executed".data) none,
                 IngEvent.chunkStatus ("ingested".data) none],
               .ok (tx.2.1, tx.2.2.1), sep.1, tx.2.2.2.2⟩

/-! ## PipelineOrchestrator — src/unnamed/part_008, runPipeline (lines 1316-1687)

Each awaited stage operation is an oracle returning its value or the message
of the exception it raises; pure bookkeeping writes that carry no status
(counter fields, file paths) are elided. The orchestration below mirrors the
source's control flow, including the try/catch of lines 1337 and 1673-1686. -/

/-- The totals returned by ingestAllChunks (neo4jIngest/index.js 650-655). -/
structure IngestTotals where
  totalNodes : Nat
  totalRelationships : Nat
  successCount : Nat
  errorCount : Nat

/-- Oracles for one runPipeline run: options, interactive answers, and the
outcome of every awaited stage call (error means the call throws with that
message). -/
structure PipeEnv where
  docExists : Bool
  useFullDocument : Bool
  createNeo4jConstraints : Bool
  isInteractive : Bool
  skipCypherConfirmation : Bool
  confirmSave : Bool
  confirmIngest : Bool
  parseDoc : Except Str Str
  chunkSave : Except Str Unit
  extract : Except Str (List (Str × List Str))
  schemaDocFound : Option (List (Str × List Str))
  createCons : Except Str Unit
  genFull : Except Str Str
  genChunksResults : List (Bool × Str)
  chunkResultsDocs : List Str
  resultValidateErr : Option Str
  resultSave : Except Str Unit
  saveFile : Except Str Str
  deleteResults : Except Str Unit
  ingest : Except Str IngestTotals

/-- Events recorded by a runPipeline run, in order: stage invocations,
Document status updates, per-stage metrics, and the document-completion
metric. -/
inductive PEvent where
  | stage (name : Str)
  | docStatus (status : Str) (err : Option Str)
  | metric (stageName : Str) (success : Bool)
  | completion (success : Bool)
deriving DecidableEq

/-- The value runPipeline returns on the non-throwing paths. -/
structure PipeReturn where
  success : Bool
  ingestionSkipped : Bool
  ingestion : Option IngestTotals

/-- The catch block of runPipeline (part_008 lines 1673-1686): persist the
error status on the Document, record the failed completion, then re-raise. -/
def pipeCatch (log : List PEvent) (e : Str) : List PEvent × Except Str PipeReturn :=
  (log ++ [PEvent.docStatus ("error".data) (some e), PEvent.completion false], .error e)

/-- runPipeline (src/unnamed/part_008 lines 1316-1687). recordMetrics and
recordDocumentCompletion swallow their own failures (lines 1091-1094 and
1141-1143), so they are pure events; createConstraints failures are swallowed
by the orchestrator itself (lines 1399-1404); the chunked-mode formatting
try/catch (lines 1486-1495) cannot throw in this model because
formatStructuredCypher is total. -/
def runPipeline (env : PipeEnv) : List PEvent × Except Str PipeReturn :=
  if !env.docExists then ([], .error ("Document not found".data)) else
  let log0 := [PEvent.docStatus ("parsing".data) none]
  -- Step 1: parse
  let log1 := log0 ++ [PEvent.stage ("parsing".data)]
  match env.parseDoc with
  | .error e => pipeCatch log1 e
  | .ok fullText =>
  let log2 := log1 ++ [PEvent.metric ("parsing".data) true]
  -- Step 2: chunk (only when not in full-document mode)
  let chunkStep : List PEvent × Option Str :=
    if !env.useFullDocument then
      let log := log2 ++ [PEvent.stage ("chunking".data)]
      let _chunks := (chunkTextFuel (fullText.length + 2) fullText 1000 100).getD []
      match env.chunkSave with
      | .error e => (log, some e)
      | .ok _ => (log, none)
    else (log2, none)
  match chunkStep.2 with
  | some e => pipeCatch chunkStep.1 e
  | none =>
  let log3 := chunkStep.1
  -- Step 3: extract schema
  let log4 := log3 ++ [PEvent.stage ("schemaExtraction".data)]
  match env.extract with
  | .error e => pipeCatch log4 e
  | .ok schema =>
  let log5 := log4 ++ [PEvent.metric ("schemaExtraction".data) true]
  let fullSchema := env.schemaDocFound.getD schema
  -- Step 4: constraints (optional). The try/catch of lines 1399-1404 swallows
  -- any createConstraints failure, so env.createCons is deliberately never
  -- consulted: its outcome is unobservable to the rest of the run.
  let log6 :=
    if env.createNeo4jConstraints then log5 ++ [PEvent.stage ("constraints".data)]
    else log5
  -- Step 5: generate
  let log7 := log6 ++ [PEvent.docStatus ("cypher_generating".data) none,
    PEvent.stage ("cypherGeneration".data)]
  let genStep : List PEvent × Except Str Str :=
    if env.useFullDocument then
      match env.genFull with
      | .error e => (log7, .error e)
      | .ok fullCypher =>
        match env.resultValidateErr with
        | some ve => (log7, .error ve)
        | none =>
          match env.resultSave with
          | .error e => (log7, .error e)
          | .ok _ => (log7, .ok fullCypher)
    else
      let successful := (env.genChunksResults.filter (fun p => p.1)).length
      if successful == 0 then
        (log7, .error ("No Cypher was successfully generated for any chunk".data))
      else
        let fullCypher0 := joinSep ("\n\n".data) env.chunkResultsDocs
        let fullCypher :=
          if !fullCypher0.isEmpty then formatStructuredCypher fullCypher0 (some fullSchema)
          else fullCypher0
        (log7, .ok fullCypher)
  match genStep.2 with
  | .error e => pipeCatch genStep.1 e
  | .ok fullCypher =>
  let log8 := genStep.1 ++ [PEvent.metric ("cypherGeneration".data) (!fullCypher.isEmpty)]
  -- save Cypher to file (line 1508)
  match env.saveFile with
  | .error e => pipeCatch log8 e
  | .ok _ =>
  -- interactive checkpoint (lines 1536-1630)
  if env.isInteractive && !env.skipCypherConfirmation then
    if !env.confirmSave then
      match env.deleteResults with
      | .error e => pipeCatch log8 e
      | .ok _ =>
        (log8 ++ [PEvent.docStatus ("cypher_generated".data) none],
          .ok ⟨true, true, none⟩)
    else if !env.confirmIngest then
      (log8 ++ [PEvent.docStatus ("cypher_generated".data) none],
        .ok ⟨true, true, none⟩)
    else
      -- Step 6: ingest
      let log9 := log8 ++ [PEvent.stage ("ingestion".data)]
      match env.ingest with
      | .error e => pipeCatch log9 e
      | .ok totals =>
        (log9 ++ [PEvent.metric ("ingestion".data) (decide (totals.successCount > 0)),
           PEvent.completion true],
          .ok ⟨true, false, some totals⟩)
  else
    let log9 := log8 ++ [PEvent.stage ("ingestion".data)]
    match env.ingest with
    | .error e => pipeCatch log9 e
    | .ok totals =>
      (log9 ++ [PEvent.metric ("ingestion".data) (decide (totals.successCount > 0)),
         PEvent.completion true],
        .ok ⟨true, false, some totals⟩)

/-- The pipeline stages whose exceptions reach the runPipeline catch block,
in execution order, named after the stage keys of recordMetrics
(part_008 line 1003). -/
inductive PipeStage where
  | parsing
  | schemaExtraction
  | cypherGeneration
  | ingestion
deriving DecidableEq

/-- Execution-order index of a pipeline stage. -/
def stageIdx : PipeStage → Nat
  | .parsing => 0
  | .schemaExtraction => 1
  | .cypherGeneration => 2
  | .ingestion => 3

/-- Stage marker name as recorded in the event log. -/
def stageName : PipeStage → Str
  | .parsing => "parsing".data
  | .schemaExtraction => "schemaExtraction".data
  | .cypherGeneration => "cypherGeneration".data
  | .ingestion => "ingestion".data

/-- The stage `s` is the first to raise, with message `e`, in a full-document
mode run that reaches it: every prerequisite call succeeds and the
interactive checkpoint does not divert before ingestion. -/
def stageFailsFirst (env : PipeEnv) (s : PipeStage) (e : Str) : Prop :=
  env.docExists = true ∧ env.useFullDocument = true ∧
  match s with
  | .parsing => env.parseDoc = .error e
  | .schemaExtraction => (∃ t, env.parseDoc = .ok t) ∧ env.extract = .error e
  | .cypherGeneration =>
      (∃ t, env.parseDoc = .ok t) ∧ (∃ sc, env.extract = .ok sc) ∧ env.genFull = .error e
  | .ingestion =>
      (∃ t, env.parseDoc = .ok t) ∧ (∃ sc, env.extract = .ok sc) ∧
      (∃ c, env.genFull = .ok c) ∧ env.resultValidateErr = none ∧
      env.resultSave = .ok () ∧ (∃ f, env.saveFile = .ok f) ∧
      env.isInteractive = false ∧ env.ingest = .error e

/-! ## Event projections and concrete programs used by the theorems -/

/-- The executed statements of an ingestion run in execution order, tagged
true for a schema-definition statement and false for a data-write. -/
def ingExecTrace : List IngEvent → List (Bool × Str)
  | [] => []
  | IngEvent.schemaExec s :: rest => (true, s) :: ingExecTrace rest
  | IngEvent.writeExec s :: rest => (false, s) :: ingExecTrace rest
  | _ :: rest => ingExecTrace rest

/-- The data-write statements attempted inside the transaction, in order. -/
def writeExecStmts : List IngEvent → List Str
  | [] => []
  | IngEvent.writeExec s :: rest => s :: writeExecStmts rest
  | _ :: rest => writeExecStmts rest

/-- Raw generator output whose edge-upsert targets an inline node; used to
exhibit that re-running the corrector on its own output is not
bit-identical. -/
def idemInput : Str :=
  ("MERGE (p:Party \x7bpartyId: \"P1\"\x7d)\nMERGE (p)-[:HAS_ACCOUNT]->(acct \x7baccountId: \"A1\"\x7d)").data

/-- A schema whose nodes object is present but empty, driving the corrector
to infer constraints from the parsed nodes. -/
def emptySchema : SchemaNodes := some []

/-- Raw generator output for the HAS_POSITION scenario: node-upserts label the
variables, the edge-upsert carries bare variables. -/
def hasPositionInput : Str :=
  ("MERGE (a:Position \x7bpositionId: \"P1\"\x7d)\nMERGE (account:Account \x7baccountId: \"A1\"\x7d)\nMERGE (a)-[:HAS_POSITION]->(account)").data

/-- The document schema of the HAS_POSITION scenario. -/
def hasPositionSchema : SchemaNodes :=
  some [(("Position").data, [("positionId").data]), (("Account").data, [("accountId").data])]

/-- The corrector chain's output on the HAS_POSITION scenario (fixCypherSyntax
then formatStructuredCypher, the order of generateCypherForFullDocument,
part_008 lines 924-941). -/
def hasPositionOutput : Str :=
  formatStructuredCypher (fixCypherSyntaxPass hasPositionInput) hasPositionSchema

/-- The same edge written with inline labels on both endpoints, the shape the
regex direction rule does fire on. -/
def hasPositionInlineInput : Str :=
  ("MERGE (a:Position \x7bpositionId: \"P1\"\x7d)-[:HAS_POSITION]->(b:Account \x7baccountId: \"A1\"\x7d)").data

/-- Raw generator output for a small Party/Account document. -/
def partyAccountInput : Str :=
  ("MERGE (a:Party \x7bpartyId: \"P1\"\x7d)\nMERGE (b:Account \x7baccountId: \"A1\"\x7d)\nMERGE (a)-[:HAS_ACCOUNT]->(b)").data

/-- The Party/Account document schema. -/
def partyAccountSchema : SchemaNodes :=
  some [(("Party").data, [("partyId").data]), (("Account").data, [("accountId").data])]

/-- The corrected program for the Party/Account document. -/
def correctedProgram : Str := formatStructuredCypher partyAccountInput partyAccountSchema

/-- The corrected program split into statements, as ingestion splits it. -/
def correctedProgramStmts : List Str := splitCypherStatements correctedProgram

/-- A three-statement data-write program whose last statement fails. -/
def ingestProgramFail : Str :=
  ("MERGE (n:A \x7bid: \"1\"\x7d);\nMERGE (m:B \x7bid: \"2\"\x7d);\nBAD").data

/-- A generated (not yet executed) Cypher result holding `ingestProgramFail`. -/
def ingestResultFail : ChunkCypherResultRec :=
  { status := ("generated").data, generatedCypher := ingestProgramFail,
    nodesCreated := 0, relationshipsCreated := 0 }

/-- Ingestion environment in which validation passes and exactly the BAD
statement fails inside the transaction. -/
def ingestEnvFail : IngestEnv :=
  { result := some ingestResultFail, chunkExists := true,
    explainErr := fun _ => none,
    writeRun := fun s =>
      if s == ("BAD").data then .error (("boom").data) else .ok (1, 0) }

/-- A program mixing a schema statement, a comment-led statement that
ingestion skips, and two data-writes. -/
def ingestProgramMixed : Str :=
  ("CREATE INDEX i1;\n/* section */ MERGE (x:A \x7bid: \"0\"\x7d);\nMERGE (n:A \x7bid: \"1\"\x7d);\nMERGE (m:B \x7bid: \"2\"\x7d)").data

/-- A generated Cypher result holding `ingestProgramMixed`. -/
def ingestResultMixed : ChunkCypherResultRec :=
  { status := ("generated").data, generatedCypher := ingestProgramMixed,
    nodesCreated := 0, relationshipsCreated := 0 }

/-- Ingestion environment in which every statement succeeds. -/
def ingestEnvMixed : IngestEnv :=
  { result := some ingestResultMixed, chunkExists := true,
    explainErr := fun _ => none, writeRun := fun _ => .ok (1, 0) }

/-- A full-document pipeline run whose schema-extraction stage throws. -/
def pipeEnvFailExtract : PipeEnv :=
  { docExists := true, useFullDocument := true, createNeo4jConstraints := true,
    isInteractive := false, skipCypherConfirmation := false, confirmSave := true,
    confirmIngest := true, parseDoc := .ok (("text").data), chunkSave := .ok (),
    extract := .error (("schema boom").data), schemaDocFound := none,
    createCons := .ok (), genFull := .ok [], genChunksResults := [],
    chunkResultsDocs := [], resultValidateErr := none, resultSave := .ok (),
    saveFile := .ok [], deleteResults := .ok (), ingest := .ok ⟨0, 0, 0, 0⟩ }

/-! ## Theorems -/

/-- When parsing finds no node-upsert, formatStructuredCypher returns the raw
input unchanged (chunking.js lines 409-412). -/
theorem formatStructuredCypher_no_nodes (raw : Str) (schemaNodes : SchemaNodes)
    (h : (parseCypher (cleanHtmlEntities raw)).1 = []) :
    formatStructuredCypher raw schemaNodes = raw := by
  unfold formatStructuredCypher
  simp only [h, List.isEmpty_nil, if_pos]

/-- C1: the corrector is not idempotent. Feeding its output back in moves the
hoisted inline Account node from the relationship section into the node
section, changes its variable from a2 to account2, and adds an Account
constraint, so the second output differs from the first. -/
theorem corrector_not_idempotent_counterexample :
    formatStructuredCypher (formatStructuredCypher idemInput emptySchema) emptySchema
      ≠ formatStructuredCypher idemInput emptySchema := by
  decide

/-- C1 (amended): re-running the corrector on its own output is bit-identical
on exactly the fallback inputs, those from which no node-upsert parses, where
the corrector returns its input unchanged; on general inputs idempotence
fails. -/
theorem corrector_idempotent_on_nodeless (raw : Str) (schemaNodes : SchemaNodes)
    (h : (parseCypher (cleanHtmlEntities raw)).1 = []) :
    formatStructuredCypher (formatStructuredCypher raw schemaNodes) schemaNodes
      = formatStructuredCypher raw schemaNodes := by
  rw [formatStructuredCypher_no_nodes raw schemaNodes h,
      formatStructuredCypher_no_nodes raw schemaNodes h]

/-- Witness for the amended C1 theorem at a concrete nodeless input. -/
theorem corrector_idempotent_on_nodeless_witness :
    formatStructuredCypher (formatStructuredCypher ("hello".data) emptySchema) emptySchema
      = formatStructuredCypher ("hello".data) emptySchema :=
  corrector_idempotent_on_nodeless ("hello".data) emptySchema (by decide)

/-- C8: on the nodeless input (a)-&gt;(b) the corrector returns the raw input
with the escape intact — not the decoded text the claim describes. -/
theorem nodeless_fallback_not_decoded_counterexample :
    formatStructuredCypher (("(a)-&gt;(b)").data) emptySchema = ("(a)-&gt;(b)").data
    ∧ formatStructuredCypher (("(a)-&gt;(b)").data) emptySchema
        ≠ cleanHtmlEntities (("(a)-&gt;(b)").data) := by
  exact ⟨by decide, by decide⟩

/-- C8 (amended): for every input from which the corrector parses zero
node-upserts, it returns the original raw text unchanged — no information is
lost, but the text is returned undecoded, with escaped arrow renderings still
in place. -/
theorem corrector_nodeless_returns_raw (raw : Str) (schemaNodes : SchemaNodes)
    (h : (parseCypher (cleanHtmlEntities raw)).1 = []) :
    formatStructuredCypher raw schemaNodes = raw :=
  formatStructuredCypher_no_nodes raw schemaNodes h

/-- Witness for the amended C8 theorem: the escaped input comes back verbatim. -/
theorem corrector_nodeless_returns_raw_witness :
    formatStructuredCypher (("(a)-&gt;(b)").data) emptySchema = ("(a)-&gt;(b)").data :=
  corrector_nodeless_returns_raw (("(a)-&gt;(b)").data) emptySchema (by decide)

/-- C6: through the correction chain of the generation stage (fixCypherSyntax,
whose bounded loop decodes until a fixed point, then formatStructuredCypher)
the single-escaped input (a)-&gt;(b) and the double-escaped input
(a)-&amp;gt;(b) both normalize to (a)->(b), whatever the schema. -/
theorem decode_fixed_point_scenarios (schemaNodes : SchemaNodes) :
    formatStructuredCypher (fixCypherSyntaxPass (("(a)-&gt;(b)").data)) schemaNodes
      = ("(a)->(b)").data
    ∧ formatStructuredCypher (fixCypherSyntaxPass (("(a)-&amp;gt;(b)").data)) schemaNodes
      = ("(a)->(b)").data := by
  exact ⟨rfl, rfl⟩

/-- C7: the corrector does not flip the bare-variable HAS_POSITION edge. The
Position node keeps the source role — the output contains the pass-through
edge (pos1)-[:HAS_POSITION]->(account2) and no edge pointing into a Position
variable, contradicting the claimed (account)-[:HAS_POSITION]->(positionVar). -/
theorem hasPosition_not_flipped_counterexample :
    strIncludes hasPositionOutput (("MERGE (pos1)-[:HAS_POSITION]->(account2);").data) = true
    ∧ strIncludes hasPositionOutput ((")-[:HAS_POSITION]->(pos").data) = false := by
  exact ⟨by decide, by decide⟩

/-- C7 (amended): neither correction pass has a rule for a HAS_POSITION edge
written with bare variables — formatStructuredCypher's direction table covers
HAS_ACCOUNT, EXECUTED_TRADE, HELD_IN_POSITION/HELD_IN_HOLDING and
MADE_INVESTMENT only, and fixCypherSyntax's HAS_POSITION regex requires
inline labels on both endpoints — so the edge passes through with renamed
variables and Position as source; the same edge written with inline labels is
flipped by the regex pass. -/
theorem hasPosition_passthrough_amended :
    fixCypherSyntaxPass hasPositionInput = hasPositionInput
    ∧ strIncludes hasPositionOutput (("MERGE (pos1)-[:HAS_POSITION]->(account2);").data) = true
    ∧ fixCypherSyntaxPass hasPositionInlineInput
        = ("MERGE (b)-[:HAS_POSITION]->(a)").data := by
  exact ⟨by decide, by decide, by decide⟩

/-- When every attempt fails and the predicate always retries, the retry loop
makes one call per remaining attempt plus the current one and ends with the
last attempt's error. -/
theorem retryLoop_all_fail {ε α : Type} (f : Nat → Except ε α) (es : Nat → ε)
    (hf : ∀ n, f n = .error (es n)) (m maxD : Nat) :
    ∀ (remaining attempt delay : Nat) (ds : List Nat),
      (retryLoop f (fun _ => true) m maxD remaining attempt delay ds).calls
        = attempt + remaining + 1
      ∧ (retryLoop f (fun _ => true) m maxD remaining attempt delay ds).result
        = .error (es (attempt + remaining)) := by
  intro remaining
  induction remaining with
  | zero =>
    intro attempt delay ds
    rw [retryLoop, hf attempt]
    simp
  | succ n ih =>
    intro attempt delay ds
    rw [retryLoop, hf attempt]
    simp only [Bool.not_true, Bool.false_eq_true, if_false]
    have := ih (attempt + 1) (min (delay * m) maxD) (ds ++ [delay])
    have h3 : attempt + 1 + n = attempt + (n + 1) := by omega
    constructor
    · rw [this.1]; omega
    · rw [this.2, h3]

/-- The chunkText loop body at window 2, overlap 2 on the three-word text
leaves the window start at 0, so no iteration budget completes the loop. -/
theorem chunkGo_stuck :
    ∀ (fuel ci : Nat) (acc : List JSChunk),
      chunkGo (jsSplitWS (("a b c").data)) 2 2 fuel 0 ci acc = none := by
  intro fuel
  induction fuel with
  | zero => intro ci acc; rfl
  | succ n ih =>
    intro ci acc
    rw [chunkGo]
    norm_num
    exact ih (ci + 1) _

/-- C4: chunkText does not clamp its step — when overlapWords equals
windowWords (here both 2) on a text that does not fit one window ("a b c"),
the window start advances by zero every iteration, so the loop never
terminates: no fuel bound lets it finish. The spec's required clamp to a step
of at least 1 (chunking.js line 55 has none) is absent. -/
theorem chunkText_no_forward_progress :
    ∀ fuel : Nat, chunkTextFuel fuel (("a b c").data) 2 2 = none := by
  intro fuel
  simp only [chunkTextFuel]
  rw [if_neg (by decide), if_neg (by decide)]
  exact chunkGo_stuck fuel 0 []

/-- C5: with maxAttempts = 3 (a key retryWithBackoff never reads, so the
default budget maxRetries = 3 applies) an always-throwing retryable operation
is called 4 times, not 3; the final (fourth) error is re-raised. -/
theorem retry_three_attempts_counterexample :
    (retryWithBackoff (fun n => (Except.error n : Except Nat Unit))
        ({ maxAttempts := some 3 } : RetryOptions Nat)).calls = 4
    ∧ (retryWithBackoff (fun n => (Except.error n : Except Nat Unit))
        ({ maxAttempts := some 3 } : RetryOptions Nat)).calls ≠ 3
    ∧ (retryWithBackoff (fun n => (Except.error n : Except Nat Unit))
        ({ maxAttempts := some 3 } : RetryOptions Nat)).result = .error 3 := by
  exact ⟨rfl, by decide, rfl⟩

/-- C5 (amended): retryWithBackoff's budget option is maxRetries, the number
of retries after the first attempt, defaulting to 3 — also when a caller
passes maxAttempts = 3, since that key is never read — so an always-throwing
retryable operation is called exactly maxRetries + 1 = 4 times and the last
error is re-raised. -/
theorem retry_budget_and_last_error {ε α : Type} (f : Nat → Except ε α)
    (opts : RetryOptions ε) (es : Nat → ε)
    (hf : ∀ n, f n = .error (es n))
    (hmr : opts.maxRetries = none ∨ opts.maxRetries = some 3)
    (hsr : opts.shouldRetry = none) :
    (retryWithBackoff f opts).calls = 4 ∧
    (retryWithBackoff f opts).result = .error (es 3) := by
  have hm : opts.maxRetries.getD 3 = 3 := by cases hmr <;> simp [*]
  simp only [retryWithBackoff, hm, hsr, Option.getD_none]
  have := retryLoop_all_fail f es hf (opts.backoffMultiplier.getD 2)
    (opts.maxDelay.getD 30000) 3 0 (opts.initialDelay.getD 1000) []
  exact ⟨this.1, this.2⟩

/-- Witness for the amended C5 theorem at a concrete operation and options. -/
theorem retry_budget_and_last_error_witness :
    (retryWithBackoff (fun n => (Except.error n : Except Nat Unit))
        ({ maxAttempts := some 3 } : RetryOptions Nat)).calls = 4
    ∧ (retryWithBackoff (fun n => (Except.error n : Except Nat Unit))
        ({ maxAttempts := some 3 } : RetryOptions Nat)).result = .error 3 :=
  retry_budget_and_last_error _ _ (fun n => n) (fun _ => rfl) (Or.inl rfl) rfl

/-- C10: the options extractSchema passes carry the classifier under
isRetryable while retryWithBackoff reads shouldRetry, so the default
retry-everything predicate governs: an operation all of whose errors the
classifier marks non-retryable is still attempted the full 4-call budget and
the last error re-raised; had the same classifier been passed under
shouldRetry, the first attempt's failure would have ended the call. -/
theorem extractSchema_retry_ignores_classifier {ε α : Type}
    (classifier : ε → Bool) (f : Nat → Except ε α) (es : Nat → ε)
    (hf : ∀ n, f n = .error (es n))
    (hnr : ∀ n, classifier (es n) = false) :
    (retryWithBackoff f (extractSchemaRetryOptions classifier)).calls = 4
    ∧ (retryWithBackoff f (extractSchemaRetryOptions classifier)).result = .error (es 3)
    ∧ (retryWithBackoff f
        { extractSchemaRetryOptions classifier with shouldRetry := some classifier }).calls
      = 1 := by
  refine ⟨?_, ?_, ?_⟩
  · exact (retry_budget_and_last_error f _ es hf (Or.inr rfl) rfl).1
  · exact (retry_budget_and_last_error f _ es hf (Or.inr rfl) rfl).2
  · simp only [retryWithBackoff, extractSchemaRetryOptions, Option.getD_some]
    rw [retryLoop, hf 0]
    simp [hnr 0]

/-- Witness for the C10 theorem at a concrete always-failing operation and an
everywhere-non-retryable classifier. -/
theorem extractSchema_retry_ignores_classifier_witness :
    (retryWithBackoff (fun n => (Except.error n : Except Nat Unit))
        (extractSchemaRetryOptions (fun _ => false))).calls = 4
    ∧ (retryWithBackoff (fun n => (Except.error n : Except Nat Unit))
        (extractSchemaRetryOptions (fun _ => false))).result = .error 3
    ∧ (retryWithBackoff (fun n => (Except.error n : Except Nat Unit))
        { extractSchemaRetryOptions (fun _ => false) with
          shouldRetry := some (fun _ => false) }).calls = 1 :=
  extractSchema_retry_ignores_classifier (fun _ => false) _ (fun n => n)
    (fun _ => rfl) (fun _ => rfl)

/-- separateSchemaAndWriteStatements is the pair of order-preserving filters:
non-skipped schema-definition statements and non-skipped data-write
statements. -/
theorem separate_eq_filters (statements : List Str) :
    separateSchemaAndWriteStatements statements
      = (statements.filter (fun t => !skippedStmt t && isSchemaModification t),
         statements.filter (fun t => !skippedStmt t && !isSchemaModification t)) := by
  have key : ∀ (l : List Str) (acc : List Str × List Str),
      l.foldl (fun acc statement =>
        if skippedStmt statement then acc
        else if isSchemaModification statement then (acc.1 ++ [statement], acc.2)
        else (acc.1, acc.2 ++ [statement])) acc
      = (acc.1 ++ l.filter (fun t => !skippedStmt t && isSchemaModification t),
         acc.2 ++ l.filter (fun t => !skippedStmt t && !isSchemaModification t)) := by
    intro l
    induction l with
    | nil => intro acc; simp
    | cons s rest ih =>
      intro acc
      by_cases h1 : skippedStmt s
      · simp [List.foldl_cons, h1, ih]
      · by_cases h2 : isSchemaModification s
        · simp [List.foldl_cons, h1, h2, ih]
        · simp [List.foldl_cons, h1, h2, ih]
  simpa [separateSchemaAndWriteStatements] using key statements ([], [])

/-- The execution trace projection distributes over append. -/
theorem ingExecTrace_append (a b : List IngEvent) :
    ingExecTrace (a ++ b) = ingExecTrace a ++ ingExecTrace b := by
  induction a with
  | nil => rfl
  | cons ev rest ih => cases ev <;> simp [ingExecTrace, ih]

/-- The trace of a block of schema executions. -/
theorem ingExecTrace_schemaExec (l : List Str) :
    ingExecTrace (l.map IngEvent.schemaExec) = l.map (fun s => (true, s)) := by
  induction l with
  | nil => rfl
  | cons s rest ih => simp [ingExecTrace, ih]

/-- The trace of a block of write executions. -/
theorem ingExecTrace_writeExec (l : List Str) :
    ingExecTrace (l.map IngEvent.writeExec) = l.map (fun s => (false, s)) := by
  induction l with
  | nil => rfl
  | cons s rest ih => simp [ingExecTrace, ih]

/-- The write-statement projection distributes over append. -/
theorem writeExecStmts_append (a b : List IngEvent) :
    writeExecStmts (a ++ b) = writeExecStmts a ++ writeExecStmts b := by
  induction a with
  | nil => rfl
  | cons ev rest ih => cases ev <;> simp [writeExecStmts, ih]

/-- Write executions project to their statements. -/
theorem writeExecStmts_writeExec (l : List Str) :
    writeExecStmts (l.map IngEvent.writeExec) = l := by
  induction l with
  | nil => rfl
  | cons s rest ih => simp [writeExecStmts, ih]

/-- Schema executions contribute no write statements. -/
theorem writeExecStmts_schemaExec (l : List Str) :
    writeExecStmts (l.map IngEvent.schemaExec) = [] := by
  induction l with
  | nil => rfl
  | cons s rest ih => simp [writeExecStmts, ih]

/-- The transaction loop attempts an in-order prefix of the write statements. -/
theorem txLoop_events_prefix (w : Str → Except Str (Nat × Nat)) (ws : List Str) :
    ∀ n r, ∃ k, (txLoop w ws n r).1 = (ws.take k).map IngEvent.writeExec := by
  induction ws with
  | nil => intro n r; exact ⟨0, rfl⟩
  | cons s rest ih =>
    intro n r
    cases hw : w s with
    | ok c =>
      obtain ⟨k, hk⟩ := ih (n + c.1) (r + c.2)
      exact ⟨k + 1, by simp [txLoop, hw, hk]⟩
    | error e => exact ⟨1, by simp [txLoop, hw]⟩

/-- When the statements before `si` succeed and `si` fails, the transaction
loop attempts exactly the prefix up to and including `si` and reports the
failure. -/
theorem txLoop_first_failure (w : Str → Except Str (Nat × Nat))
    (pre : List Str) (si : Str) (post : List Str) (e : Str)
    (hok : ∀ s ∈ pre, ∃ c, w s = .ok c) (hfail : w si = .error e) :
    ∀ n r, (txLoop w (pre ++ si :: post) n r).1 = (pre ++ [si]).map IngEvent.writeExec
      ∧ (txLoop w (pre ++ si :: post) n r).2.2.2.1 = some e := by
  induction pre with
  | nil => intro n r; simp [txLoop, hfail]
  | cons s rest ih =>
    intro n r
    obtain ⟨c, hc⟩ := hok s (by simp)
    have ih2 := ih (fun t ht => hok t (by simp [ht])) (n + c.1) (r + c.2)
    simp [txLoop, hc, ih2.1, ih2.2]

/-- C2: when a data-write statement inside the write transaction is the first
to fail, iteration stops there (the attempted writes are exactly the prefix
through the failing statement), nothing from the batch persists, the
transaction is rolled back and the error is persisted on the result and
chunk records — in that order — before the error is re-raised. -/
theorem ingest_first_failure_rolls_back (env : IngestEnv) (r : ChunkCypherResultRec)
    (pre : List Str) (si : Str) (post : List Str) (e : Str)
    (hres : env.result = some r) (hst : r.status ≠ ("executed").data)
    (hch : env.chunkExists = true)
    (hgc : r.generatedCypher ≠ []) (hgt : trimStr r.generatedCypher ≠ [])
    (hv : firstSome env.explainErr (splitCypherStatements r.generatedCypher) = none)
    (hse : splitCypherStatements r.generatedCypher ≠ [])
    (hws : (separateSchemaAndWriteStatements (splitCypherStatements r.generatedCypher)).2
            = pre ++ si :: post)
    (hok : ∀ s ∈ pre, ∃ c, env.writeRun s = .ok c)
    (hfail : env.writeRun si = .error e) :
    (ingestChunkCypher env).outcome = .error e
    ∧ (ingestChunkCypher env).committedWrites = []
    ∧ writeExecStmts (ingestChunkCypher env).events = pre ++ [si]
    ∧ ∃ evs, (ingestChunkCypher env).events
        = evs ++ [IngEvent.txRollback,
            IngEvent.resultStatus (("error").data) (some e),
            IngEvent.chunkStatus (("error").data) (some e)] := by
  have hb1 : (r.status == ("executed").data) = false := by
    simp [hst]
  have htx := txLoop_first_failure env.writeRun pre si post e hok hfail 0 0
  have hgc2 : r.generatedCypher.isEmpty = false := by
    simp [List.isEmpty_eq_false, hgc]
  have hgt2 : (trimStr r.generatedCypher).isEmpty = false := by
    simp [List.isEmpty_eq_false, hgt]
  simp only [ingestChunkCypher, hres, hb1, hch, Bool.not_true, Bool.false_eq_true,
    if_false, hgc2, hgt2, Bool.or_self, hv, hse, hws, Bool.false_or,
    List.isEmpty_eq_true, List.append_eq_nil, List.cons_ne_nil, and_false, if_false,
    htx.2, ingestCatch]
  refine ⟨trivial, trivial, ?_, ?_⟩
  · simp [writeExecStmts, writeExecStmts_append, writeExecStmts_writeExec,
      writeExecStmts_schemaExec, htx.1]
  · refine ⟨[IngEvent.chunkStatus (("ingesting").data) none,
      IngEvent.resultStatus (("validated").data) none]
      ++ List.map IngEvent.schemaExec
          (separateSchemaAndWriteStatements (splitCypherStatements r.generatedCypher)).1
      ++ (txLoop env.writeRun (pre ++ si :: post) 0 0).1, ?_⟩
    simp

/-- Witness for the C2 theorem: the three-statement program fails on BAD; the
first two statements are attempted, nothing commits, both records carry the
error, and the error is re-raised. -/
theorem ingest_first_failure_rolls_back_witness :
    (ingestChunkCypher ingestEnvFail).outcome = .error (("boom").data)
    ∧ (ingestChunkCypher ingestEnvFail).committedWrites = []
    ∧ writeExecStmts (ingestChunkCypher ingestEnvFail).events
        = [("MERGE (n:A \x7bid: \"1\"\x7d)").data, ("MERGE (m:B \x7bid: \"2\"\x7d)").data]
          ++ [("BAD").data]
    ∧ ∃ evs, (ingestChunkCypher ingestEnvFail).events
        = evs ++ [IngEvent.txRollback,
            IngEvent.resultStatus (("error").data) (some (("boom").data)),
            IngEvent.chunkStatus (("error").data) (some (("boom").data))] :=
  ingest_first_failure_rolls_back ingestEnvFail ingestResultFail
    [("MERGE (n:A \x7bid: \"1\"\x7d)").data, ("MERGE (m:B \x7bid: \"2\"\x7d)").data]
    (("BAD").data) [] (("boom").data)
    rfl (by decide) rfl (by decide) (by decide) rfl (by decide) (by decide)
    (by intro t ht
        refine ⟨(1, 0), ?_⟩
        simp only [List.mem_cons, List.not_mem_nil, or_false] at ht
        rcases ht with h | h <;> subst h <;> rfl)
    rfl

/-- C3: the corrected program for the Party/Account document splits into four
statements, of which only one — a constraint — is partitioned for execution:
the data-write partition is empty, although the statements include every
node-upsert and the lone edge-upsert, because each section of the corrected
program opens with a block comment that shares the terminator of its first
statement and comment-led statements are skipped. -/
theorem corrected_program_statements_skipped_counterexample :
    correctedProgramStmts.length = 4
    ∧ (separateSchemaAndWriteStatements correctedProgramStmts).1.length = 1
    ∧ (separateSchemaAndWriteStatements correctedProgramStmts).2 = []
    ∧ (correctedProgramStmts.any
        (fun t => strIncludes t (("MERGE (party1:Party").data))) = true
    ∧ (correctedProgramStmts.any
        (fun t => strIncludes t (("-[:HAS_ACCOUNT]->").data))) = true := by
  exact ⟨by decide, by decide, by decide, by decide, by decide⟩

/-- C3 (amended): statements whose trimmed text begins with a line or block
comment are skipped; the remaining statements are partitioned into
schema-definition and data-write statements by two order-preserving filters,
and a run of the ingestion engine executes all schema-definition statements
first, in program order, followed by an in-order prefix of the data-write
statements inside the one transaction (the whole list when none fails). -/
theorem statement_partition_and_order (env : IngestEnv) (r : ChunkCypherResultRec)
    (hres : env.result = some r) (hst : r.status ≠ ("executed").data)
    (hch : env.chunkExists = true)
    (hgc : r.generatedCypher ≠ []) (hgt : trimStr r.generatedCypher ≠ [])
    (hv : firstSome env.explainErr (splitCypherStatements r.generatedCypher) = none)
    (hse : splitCypherStatements r.generatedCypher ≠ []) :
    (separateSchemaAndWriteStatements (splitCypherStatements r.generatedCypher)).1
      = (splitCypherStatements r.generatedCypher).filter
          (fun t => !skippedStmt t && isSchemaModification t)
    ∧ (separateSchemaAndWriteStatements (splitCypherStatements r.generatedCypher)).2
      = (splitCypherStatements r.generatedCypher).filter
          (fun t => !skippedStmt t && !isSchemaModification t)
    ∧ ∃ k, ingExecTrace (ingestChunkCypher env).events
        = ((separateSchemaAndWriteStatements (splitCypherStatements r.generatedCypher)).1.map
            (fun s => (true, s)))
          ++ (((separateSchemaAndWriteStatements (splitCypherStatements r.generatedCypher)).2.take
                k).map (fun s => (false, s))) := by
  have hsep := separate_eq_filters (splitCypherStatements r.generatedCypher)
  refine ⟨by rw [hsep], by rw [hsep], ?_⟩
  have hb1 : (r.status == ("executed").data) = false := by simp [hst]
  have hgc2 : r.generatedCypher.isEmpty = false := by
    simp [List.isEmpty_eq_false, hgc]
  have hgt2 : (trimStr r.generatedCypher).isEmpty = false := by
    simp [List.isEmpty_eq_false, hgt]
  simp only [ingestChunkCypher, hres, hb1, hch, Bool.not_true, Bool.false_eq_true,
    if_false, hgc2, hgt2, Bool.or_self, hv, hse, List.isEmpty_eq_true, if_neg hse]
  by_cases hw : (separateSchemaAndWriteStatements (splitCypherStatements r.generatedCypher)).2 = []
  · refine ⟨0, ?_⟩
    simp [hw, ingExecTrace_append, ingExecTrace_schemaExec, ingExecTrace]
  · obtain ⟨k, hk⟩ := txLoop_events_prefix env.writeRun
      (separateSchemaAndWriteStatements (splitCypherStatements r.generatedCypher)).2 0 0
    refine ⟨k, ?_⟩
    cases htxe : (txLoop env.writeRun
        (separateSchemaAndWriteStatements (splitCypherStatements r.generatedCypher)).2 0 0).2.2.2.1 with
    | some e2 =>
      simp [hw, htxe, ingestCatch, ingExecTrace_append, ingExecTrace_schemaExec,
        ingExecTrace_writeExec, ingExecTrace, hk]
      simp only [← List.map_take, ingExecTrace_writeExec]
    | none =>
      simp [hw, htxe, ingExecTrace_append, ingExecTrace_schemaExec,
        ingExecTrace_writeExec, ingExecTrace, hk]
      simp only [← List.map_take, ingExecTrace_writeExec]

/-- Witness for the amended C3 theorem on the mixed program: the schema
statement executes first, the comment-led statement is skipped, and the two
data-writes follow in order. -/
theorem statement_partition_and_order_witness :
    (separateSchemaAndWriteStatements (splitCypherStatements ingestProgramMixed)).1
      = (splitCypherStatements ingestProgramMixed).filter
          (fun t => !skippedStmt t && isSchemaModification t)
    ∧ (separateSchemaAndWriteStatements (splitCypherStatements ingestProgramMixed)).2
      = (splitCypherStatements ingestProgramMixed).filter
          (fun t => !skippedStmt t && !isSchemaModification t)
    ∧ ∃ k, ingExecTrace (ingestChunkCypher ingestEnvMixed).events
        = ((separateSchemaAndWriteStatements (splitCypherStatements ingestProgramMixed)).1.map
            (fun s => (true, s)))
          ++ (((separateSchemaAndWriteStatements (splitCypherStatements ingestProgramMixed)).2.take
                k).map (fun s => (false, s))) :=
  statement_partition_and_order ingestEnvMixed ingestResultMixed
    rfl (by decide) rfl (by decide) (by decide) rfl (by decide)

/-- C9: for each pipeline stage (parsing, schema extraction, generation,
ingestion, in the full-document mode that reaches it), if the stage's call is
the first to raise, the run returns that error, the event log ends with the
Document transitioning to the error status carrying the message followed by
the failed-completion record — i.e. the failure is persisted before the
re-raise — and no later stage is invoked. -/
theorem pipeline_stage_failure (env : PipeEnv) (s : PipeStage) (e : Str)
    (h : stageFailsFirst env s e) :
    (runPipeline env).2 = .error e
    ∧ (∃ pre, (runPipeline env).1
        = pre ++ [PEvent.docStatus (("error").data) (some e), PEvent.completion false])
    ∧ ∀ s2 : PipeStage, stageIdx s < stageIdx s2 →
        ((runPipeline env).1.contains (PEvent.stage (stageName s2))) = false := by
  obtain ⟨hdoc, hfull, hs⟩ := h
  cases s with
  | parsing =>
    simp only [stageFailsFirst] at hs
    have key : runPipeline env
        = pipeCatch [PEvent.docStatus (("parsing").data) none,
            PEvent.stage (("parsing").data)] e := by
      simp [runPipeline, hdoc, hfull, hs]
    refine ⟨by rw [key]; rfl, by rw [key]; exact ⟨_, rfl⟩, ?_⟩
    intro s2 hidx
    rw [key]
    cases s2 <;> simp_all [stageIdx, stageName, pipeCatch]
  | schemaExtraction =>
    obtain ⟨⟨t, hpt⟩, hext⟩ := hs
    have key : runPipeline env
        = pipeCatch [PEvent.docStatus (("parsing").data) none,
            PEvent.stage (("parsing").data), PEvent.metric (("parsing").data) true,
            PEvent.stage (("schemaExtraction").data)] e := by
      simp [runPipeline, hdoc, hfull, hpt, hext]
    refine ⟨by rw [key]; rfl, by rw [key]; exact ⟨_, rfl⟩, ?_⟩
    intro s2 hidx
    rw [key]
    cases s2 <;> simp_all [stageIdx, stageName, pipeCatch]
  | cypherGeneration =>
    obtain ⟨⟨t, hpt⟩, ⟨sc, hsc⟩, hgen⟩ := hs
    cases hcc : env.createNeo4jConstraints with
    | true =>
      have key : runPipeline env
          = pipeCatch [PEvent.docStatus (("parsing").data) none,
              PEvent.stage (("parsing").data), PEvent.metric (("parsing").data) true,
              PEvent.stage (("schemaExtraction").data),
              PEvent.metric (("schemaExtraction").data) true,
              PEvent.stage (("constraints").data),
              PEvent.docStatus (("cypher_generating").data) none,
              PEvent.stage (("cypherGeneration").data)] e := by
        simp [runPipeline, hdoc, hfull, hpt, hsc, hgen, hcc]
      refine ⟨by rw [key]; rfl, by rw [key]; exact ⟨_, rfl⟩, ?_⟩
      intro s2 hidx
      rw [key]
      cases s2 <;> simp_all [stageIdx, stageName, pipeCatch]
    | false =>
      have key : runPipeline env
          = pipeCatch [PEvent.docStatus (("parsing").data) none,
              PEvent.stage (("parsing").data), PEvent.metric (("parsing").data) true,
              PEvent.stage (("schemaExtraction").data),
              PEvent.metric (("schemaExtraction").data) true,
              PEvent.docStatus (("cypher_generating").data) none,
              PEvent.stage (("cypherGeneration").data)] e := by
        simp [runPipeline, hdoc, hfull, hpt, hsc, hgen, hcc]
      refine ⟨by rw [key]; rfl, by rw [key]; exact ⟨_, rfl⟩, ?_⟩
      intro s2 hidx
      rw [key]
      cases s2 <;> simp_all [stageIdx, stageName, pipeCatch]
  | ingestion =>
    obtain ⟨⟨t, hpt⟩, ⟨sc, hsc⟩, ⟨c, hgen⟩, hval, hsave, ⟨f, hfile⟩, hint, hingest⟩ := hs
    cases hcc : env.createNeo4jConstraints with
    | true =>
      have key : runPipeline env
          = pipeCatch [PEvent.docStatus (("parsing").data) none,
              PEvent.stage (("parsing").data), PEvent.metric (("parsing").data) true,
              PEvent.stage (("schemaExtraction").data),
              PEvent.metric (("schemaExtraction").data) true,
              PEvent.stage (("constraints").data),
              PEvent.docStatus (("cypher_generating").data) none,
              PEvent.stage (("cypherGeneration").data),
              PEvent.metric (("cypherGeneration").data) (!c.isEmpty),
              PEvent.stage (("ingestion").data)] e := by
        simp [runPipeline, hdoc, hfull, hpt, hsc, hgen, hval, hsave, hfile, hint,
          hingest, hcc]
      refine ⟨by rw [key]; rfl, by rw [key]; exact ⟨_, rfl⟩, ?_⟩
      intro s2 hidx
      cases s2 <;> simp_all [stageIdx, stageName]
    | false =>
      have key : runPipeline env
          = pipeCatch [PEvent.docStatus (("parsing").data) none,
              PEvent.stage (("parsing").data), PEvent.metric (("parsing").data) true,
              PEvent.stage (("schemaExtraction").data),
              PEvent.metric (("schemaExtraction").data) true,
              PEvent.docStatus (("cypher_generating").data) none,
              PEvent.stage (("cypherGeneration").data),
              PEvent.metric (("cypherGeneration").data) (!c.isEmpty),
              PEvent.stage (("ingestion").data)] e := by
        simp [runPipeline, hdoc, hfull, hpt, hsc, hgen, hval, hsave, hfile, hint,
          hingest, hcc]
      refine ⟨by rw [key]; rfl, by rw [key]; exact ⟨_, rfl⟩, ?_⟩
      intro s2 hidx
      cases s2 <;> simp_all [stageIdx, stageName]

/-- Witness for the C9 theorem: a run whose schema extraction throws ends in
the error status with the message, records the failed completion, and never
reaches generation or ingestion. -/
theorem pipeline_stage_failure_witness :
    (runPipeline pipeEnvFailExtract).2 = .error (("schema boom").data)
    ∧ (∃ pre, (runPipeline pipeEnvFailExtract).1
        = pre ++ [PEvent.docStatus (("error").data) (some (("schema boom").data)),
            PEvent.completion false])
    ∧ ∀ s2 : PipeStage, stageIdx PipeStage.schemaExtraction < stageIdx s2 →
        ((runPipeline pipeEnvFailExtract).1.contains (PEvent.stage (stageName s2)))
          = false :=
  pipeline_stage_failure pipeEnvFailExtract PipeStage.schemaExtraction
    (("schema boom").data) ⟨rfl, rfl, ⟨(("text").data), rfl⟩, rfl⟩

end DocuGraph
